import Mathlib

/-!
# Display topology of `dp_device.c`

A shallow embedding of the device object of `src/dp_device.c`: the probing of
screens, CRTCs and planes, the naming of screens, open and close, and the
lookup functions over the in-memory arrays.

Conventions of the embedding.

* A C array of pointers (`struct dp_screen **screens`, ...) is a `List` of
  `Option`s: `none` in a slot is a `NULL` pointer left by `calloc`, and a
  position past the end of the list is outside the allocation (a `NULL` array
  is the empty list).
* A lookup runs in `Run`: it records every array slot it evaluates
  (`reads`) and ends either with a value (`out = some v`) or in undefined
  behaviour (`out = none`: a `NULL` dereference or a read outside the array).
  A returned pointer is `Option`: `some none` is a returned `NULL`.
* A probe returns `Option dp_device` (`none`: undefined behaviour), and
  `dp_device_close` the list of the calls it issues.
* `unsigned int` arithmetic that can wrap is written with `% 2 ^ 32`. Loop
  counters are natural numbers: a loop `for (i = 0; i < num; i++)` is a
  recursion on the number `num - i` of iterations left.
* `DP_DBG` is a macro of the absent `dp_common.h`; whether it evaluates its
  arguments is the parameter `dbg` of every function that uses it.  `DP_ERR`
  prints, hence evaluates its arguments.
-/

namespace DpDevice

/-! ## Data model -/

/-- The part of `struct dp_crtc` the device code reads: `id`. -/
structure dp_crtc where
  id : Nat
deriving DecidableEq, Repr

/-- The part of `struct dp_plane` the device code reads: `id`, `type` and the
pointer `crtc` (`none` is `NULL`). -/
structure dp_plane where
  id : Nat
  type : Nat
  crtc : Option dp_crtc
deriving DecidableEq, Repr

/-- The part of `struct dp_screen` the device code reads: `id`, `type` and the
string `name` (`none` is `NULL`). -/
structure dp_screen where
  id : Nat
  type : Nat
  name : Option String
deriving DecidableEq, Repr

/-- The record `struct dp_device`: the handle and the three arrays with their
counts. -/
structure dp_device where
  fd : Int
  screens : List (Option dp_screen)
  num_screens : Nat
  crtcs : List (Option dp_crtc)
  num_crtcs : Nat
  planes : List (Option dp_plane)
  num_planes : Nat
deriving DecidableEq, Repr

/-- The part of `drmModeRes` the probes read: the connector and CRTC identity
lists (`count_connectors`, `count_crtcs` are their lengths). -/
structure drmModeRes where
  connectors : List Nat
  crtcs : List Nat
deriving DecidableEq, Repr

/-- The table `connector_names` (lines 8-26). -/
def connector_names : List String :=
  ["Unknown", "VGA", "DVI-I", "DVI-D", "DVI-A", "Composite", "SVIDEO", "LVDS",
   "Component", "9PinDIN", "DisplayPort", "HDMI-A", "HDMI-B", "TV", "eDP",
   "Virtual", "DSI"]

/-- The device as `dp_device_open` hands it to the probes: `calloc`ed (every
field zero, every array `NULL`) with the handle stored. -/
def calloc_device (fd : Int) : dp_device :=
  { fd := fd, screens := [], num_screens := 0, crtcs := [], num_crtcs := 0,
    planes := [], num_planes := 0 }

/-! ## Runs of the lookup functions -/

/-- An evaluation of `device->screens[i]`, `device->crtcs[i]` or
`device->planes[i]`. -/
inductive Access where
  | screens (i : Nat)
  | crtcs (i : Nat)
  | planes (i : Nat)
deriving DecidableEq, Repr

/-- A run of a lookup: the slots it evaluated, in order, and its outcome
(`none`: undefined behaviour). -/
structure Run (α : Type) where
  reads : List Access
  out : Option α
deriving DecidableEq, Repr

/-- Sequencing of runs: the second part runs only if the first did not end in
undefined behaviour. -/
def Run.bind {α β : Type} (r : Run α) (f : α → Run β) : Run β :=
  match r.out with
  | none => ⟨r.reads, none⟩
  | some a => ⟨r.reads ++ (f a).reads, (f a).out⟩

instance : Monad Run where
  pure a := ⟨[], some a⟩
  bind := Run.bind

/-- Dereference of a pointer: undefined on `NULL`. -/
def deref {α : Type} (p : Option α) : Run α := ⟨[], p⟩

/-- The arguments of a `DP_DBG` that dereferences `p`. -/
def dbg_deref {α : Type} (dbg : Bool) (p : Option α) : Run Unit :=
  if dbg then ⟨[], p.map fun _ => ()⟩ else pure ()

/-- Evaluation of `dev->screens[i]`. -/
def load_screen (dev : dp_device) (i : Nat) : Run (Option dp_screen) :=
  ⟨[Access.screens i], dev.screens[i]?⟩

/-- Evaluation of `dev->crtcs[i]`. -/
def load_crtc (dev : dp_device) (i : Nat) : Run (Option dp_crtc) :=
  ⟨[Access.crtcs i], dev.crtcs[i]?⟩

/-- Evaluation of `dev->planes[i]`. -/
def load_plane (dev : dp_device) (i : Nat) : Run (Option dp_plane) :=
  ⟨[Access.planes i], dev.planes[i]?⟩

/-! ## Probing -/

/-- The text `"%s-%u"` produces for a label and an `unsigned int`. -/
def format_name (type : String) (count : Nat) : String :=
  type ++ "-" ++ toString count

/-- The call `snprintf(buf, size, "%s-%u", type, count)`: the return value
(length of the full text) and the text stored in a buffer of `size` bytes
(at most `size - 1` characters before the terminator). -/
def snprintf (size : Nat) (type : String) (count : Nat) : Nat × String :=
  ((format_name type count).length,
   String.mk ((format_name type count).data.take (size - 1)))

/-- The loop of `dp_device_probe_screens` (lines 50-78) over the connectors
still to visit, with the loop index `i` and the array `counts`.
`dp_screen_create i c` is the outcome of the `i`-th call (on connector `c`),
`malloc_ok i` whether the name allocation of iteration `i` succeeds. The
result is `none` when an index leaves `connector_names`, `counts` or the
screen array. -/
def dp_device_probe_screens_loop (dp_screen_create : Nat → Nat → Option dp_screen)
    (malloc_ok : Nat → Bool) :
    List Nat → Nat → List Nat → dp_device → Option dp_device
  | [], _, _, device => some device
  | c :: rest, i, counts, device =>
    match dp_screen_create i c with
    | none => dp_device_probe_screens_loop dp_screen_create malloc_ok rest (i + 1) counts device
    | some screen =>
      match connector_names[screen.type]?, counts[screen.type]? with
      | some type, some count =>
        let len := (snprintf 0 type count).1
        if malloc_ok i then
          let name := (snprintf (len + 1) type count).2
          if device.num_screens < device.screens.length then
            dp_device_probe_screens_loop dp_screen_create malloc_ok rest (i + 1)
              (counts.set screen.type ((count + 1) % 2 ^ 32))
              { device with
                screens := device.screens.set device.num_screens
                  (some { screen with name := some name })
                num_screens := device.num_screens + 1 }
          else none
        else dp_device_probe_screens_loop dp_screen_create malloc_ok rest (i + 1) counts device
      | _, _ => none

/-- The function `dp_device_probe_screens` (lines 28-81). `res` is the result
of `drmModeGetResources` (`none`: `NULL`), `calloc_ok` whether the array
allocation succeeds. -/
def dp_device_probe_screens (res : Option drmModeRes) (calloc_ok : Bool)
    (dp_screen_create : Nat → Nat → Option dp_screen) (malloc_ok : Nat → Bool)
    (device : dp_device) : Option dp_device :=
  match res with
  | none => some device
  | some r =>
    if calloc_ok then
      dp_device_probe_screens_loop dp_screen_create malloc_ok r.connectors 0
        (List.replicate connector_names.length 0)
        { device with screens := List.replicate r.connectors.length none }
    else some { device with screens := [] }

/-- The loop of `dp_device_probe_crtcs` (lines 101-109): a materialised CRTC
is stored at the loop index `i`, and only then is `num_crtcs` incremented. -/
def dp_device_probe_crtcs_loop (dp_crtc_create : Nat → Nat → Option dp_crtc) :
    List Nat → Nat → dp_device → Option dp_device
  | [], _, device => some device
  | c :: rest, i, device =>
    match dp_crtc_create i c with
    | none => dp_device_probe_crtcs_loop dp_crtc_create rest (i + 1) device
    | some crtc =>
      if i < device.crtcs.length then
        dp_device_probe_crtcs_loop dp_crtc_create rest (i + 1)
          { device with
            crtcs := device.crtcs.set i (some crtc)
            num_crtcs := device.num_crtcs + 1 }
      else none

/-- The function `dp_device_probe_crtcs` (lines 83-112). -/
def dp_device_probe_crtcs (res : Option drmModeRes) (calloc_ok : Bool)
    (dp_crtc_create : Nat → Nat → Option dp_crtc) (device : dp_device) :
    Option dp_device :=
  match res with
  | none => some device
  | some r =>
    if calloc_ok then
      dp_device_probe_crtcs_loop dp_crtc_create r.crtcs 0
        { device with crtcs := List.replicate r.crtcs.length none }
    else some { device with crtcs := [] }

/-! ## Lookups -/

/-- The loop of `get_connector_by_id` (lines 173-178) from index `i`, with
`n = num_screens - i` iterations left. -/
def get_connector_by_id_loop (dbg : Bool) (dev : dp_device) (id : Nat) :
    Nat → Nat → Run (Option dp_screen)
  | 0, _ => pure none
  | n + 1, i => do
    let connector ← load_screen dev i
    dbg_deref dbg connector
    match connector with
    | some c =>
      if c.id = id then pure (some c)
      else get_connector_by_id_loop dbg dev id n (i + 1)
    | none => get_connector_by_id_loop dbg dev id n (i + 1)

/-- The function `get_connector_by_id` (lines 166-182). -/
def get_connector_by_id (dbg : Bool) (dev : dp_device) (id : Nat) :
    Run (Option dp_screen) :=
  get_connector_by_id_loop dbg dev id dev.num_screens 0

/-- The loop of `get_crtc_index` (lines 188-192) from index `i`, with
`n = num_crtcs - i` iterations left. -/
def get_crtc_index_loop (dev : dp_device) (id : Nat) : Nat → Nat → Run Int
  | 0, _ => pure (-1)
  | n + 1, i => do
    let crtc ← load_crtc dev i
    match crtc with
    | some c =>
      if c.id = id then pure (i : Int)
      else get_crtc_index_loop dev id n (i + 1)
    | none => get_crtc_index_loop dev id n (i + 1)

/-- The function `get_crtc_index` (lines 184-194). -/
def get_crtc_index (dev : dp_device) (id : Nat) : Run Int :=
  get_crtc_index_loop dev id dev.num_crtcs 0

/-- The value `device->planes[i]->crtc->id`. -/
def plane_crtc_id (dev : dp_device) (i : Nat) : Run Nat := do
  let plane ← load_plane dev i
  let plane ← deref plane
  let crtc ← deref plane.crtc
  pure crtc.id

/-- The loop of `dp_device_find_plane_by_index` (lines 303-321) from index
`i`, with `n = num_planes - i` iterations left; `crtc` is the pointer read
from `device->crtcs[crtc_index]`. -/
def dp_device_find_plane_by_index_loop (dbg : Bool) (device : dp_device)
    (crtc : Option dp_crtc) (plane_index : Nat) :
    Nat → Nat → Run (Option dp_plane)
  | 0, _ => pure none
  | n + 1, i => do
    let c ← deref crtc
    let pid ← plane_crtc_id device i
    if c.id ≠ pid then
      dp_device_find_plane_by_index_loop dbg device crtc plane_index n (i + 1)
    else if (i + plane_index) % 2 ^ 32 ≥ device.num_planes then pure none
    else do
      let c ← deref crtc
      let pid ← plane_crtc_id device i
      if c.id ≠ pid then do
        let _ ← plane_crtc_id device i
        pure none
      else do
        let shown ← (if dbg then load_plane device ((i + plane_index) % 2 ^ 32)
                     else pure none)
        dbg_deref dbg shown
        load_plane device ((i + plane_index) % 2 ^ 32)

/-- The function `dp_device_find_plane_by_index` (lines 289-327). -/
def dp_device_find_plane_by_index (dbg : Bool) (device : dp_device)
    (crtc_index plane_index : Nat) : Run (Option dp_plane) :=
  if crtc_index > (device.num_crtcs + 2 ^ 32 - 1) % 2 ^ 32 then pure none
  else do
    let crtc ← load_crtc device crtc_index
    dp_device_find_plane_by_index_loop dbg device crtc plane_index device.num_planes 0

/-- The loop of `dp_device_find_plane_by_index_for_screen` (lines 264-282),
as `dp_device_find_plane_by_index_loop`; the index `i` is an `int` here, and
`i + plane_index` is still computed as `unsigned int`. -/
def dp_device_find_plane_by_index_for_screen_loop (dbg : Bool) (device : dp_device)
    (crtc : Option dp_crtc) (plane_index : Nat) :
    Nat → Nat → Run (Option dp_plane)
  | 0, _ => pure none
  | n + 1, i => do
    let c ← deref crtc
    let pid ← plane_crtc_id device i
    if c.id ≠ pid then
      dp_device_find_plane_by_index_for_screen_loop dbg device crtc plane_index n (i + 1)
    else if (i + plane_index) % 2 ^ 32 ≥ device.num_planes then pure none
    else do
      let c ← deref crtc
      let pid ← plane_crtc_id device i
      if c.id ≠ pid then do
        let _ ← plane_crtc_id device i
        pure none
      else do
        let shown ← (if dbg then load_plane device ((i + plane_index) % 2 ^ 32)
                     else pure none)
        dbg_deref dbg shown
        load_plane device ((i + plane_index) % 2 ^ 32)

/-- The function `dp_device_find_plane_by_index_for_screen` (lines 239-287).
The test on `connector_index` (line 246) only logs; the screen is read at
line 256. -/
def dp_device_find_plane_by_index_for_screen (dbg : Bool) (device : dp_device)
    (connector_index crtc_index plane_index : Nat) : Run (Option dp_plane) :=
  if crtc_index > (device.num_crtcs + 2 ^ 32 - 1) % 2 ^ 32 then pure none
  else do
    let screen ← load_screen device connector_index
    let screen ← deref screen
    let connector ← get_connector_by_id dbg device screen.id
    match connector with
    | none => do
      let again ← load_screen device connector_index
      let _ ← deref again
      pure none
    | some _ => do
      let crtc ← load_crtc device crtc_index
      dp_device_find_plane_by_index_for_screen_loop dbg device crtc plane_index
        device.num_planes 0

/-- The loop of `dp_device_find_plane_by_type` (lines 334-343) from index `i`
with the running counter `index`, `n = num_planes - i` iterations left. -/
def dp_device_find_plane_by_type_loop (dbg : Bool) (device : dp_device) (type : Nat) :
    Nat → Nat → Nat → Run (Option dp_plane)
  | 0, _, _ => pure none
  | n + 1, i, index => do
    let shown ← (if dbg then load_plane device i else pure none)
    dbg_deref dbg shown
    let plane ← load_plane device i
    let p ← deref plane
    if p.type = type then
      if index = 0 then load_plane device i
      else dp_device_find_plane_by_type_loop dbg device type n (i + 1) (index - 1)
    else dp_device_find_plane_by_type_loop dbg device type n (i + 1) index

/-- The function `dp_device_find_plane_by_type` (lines 329-346). -/
def dp_device_find_plane_by_type (dbg : Bool) (device : dp_device)
    (type index : Nat) : Run (Option dp_plane) :=
  dp_device_find_plane_by_type_loop dbg device type device.num_planes 0 index

/-! ## Plane probing, open and close -/

/-- The part of `drmModePlaneRes` the plane probe reads: the plane identity
list (`count_planes` is its length). -/
structure drmModePlaneRes where
  planes : List Nat
deriving DecidableEq, Repr

/-- The loop of `dp_device_probe_planes` (lines 132-139): a materialised plane
is stored at the loop index `i`, and only then is `num_planes` incremented. -/
def dp_device_probe_planes_loop (dp_plane_create : Nat → Nat → Option dp_plane) :
    List Nat → Nat → dp_device → Option dp_device
  | [], _, device => some device
  | c :: rest, i, device =>
    match dp_plane_create i c with
    | none => dp_device_probe_planes_loop dp_plane_create rest (i + 1) device
    | some plane =>
      if i < device.planes.length then
        dp_device_probe_planes_loop dp_plane_create rest (i + 1)
          { device with
            planes := device.planes.set i (some plane)
            num_planes := device.num_planes + 1 }
      else none

/-- The function `dp_device_probe_planes` (lines 114-142). `res` is the
result of `drmModeGetPlaneResources` (`none`: `NULL`). -/
def dp_device_probe_planes (res : Option drmModePlaneRes) (calloc_ok : Bool)
    (dp_plane_create : Nat → Nat → Option dp_plane) (device : dp_device) :
    Option dp_device :=
  match res with
  | none => some device
  | some r =>
    if calloc_ok then
      dp_device_probe_planes_loop dp_plane_create r.planes 0
        { device with planes := List.replicate r.planes.length none }
    else some { device with planes := [] }

/-- The outcomes of everything one `dp_device_open` asks of the platform and
of the allocator: the two `drmModeGetResources` calls, the
`drmModeGetPlaneResources` call, the three array allocations, and the
per-entity materialisations and name allocations, by loop index. -/
structure Platform where
  connector_res : Option drmModeRes
  screens_calloc_ok : Bool
  dp_screen_create : Nat → Nat → Option dp_screen
  malloc_ok : Nat → Bool
  crtc_res : Option drmModeRes
  crtcs_calloc_ok : Bool
  dp_crtc_create : Nat → Nat → Option dp_crtc
  plane_res : Option drmModePlaneRes
  planes_calloc_ok : Bool
  dp_plane_create : Nat → Nat → Option dp_plane

/-- The function `dp_device_probe` (lines 144-149): the three sub-probes in
order, each on the device the one before left. -/
def dp_device_probe (P : Platform) (device : dp_device) : Option dp_device :=
  (dp_device_probe_screens P.connector_res P.screens_calloc_ok P.dp_screen_create
    P.malloc_ok device).bind fun d1 =>
  (dp_device_probe_crtcs P.crtc_res P.crtcs_calloc_ok P.dp_crtc_create d1).bind fun d2 =>
  dp_device_probe_planes P.plane_res P.planes_calloc_ok P.dp_plane_create d2

/-- The function `dp_device_open` (lines 197-212). `device_calloc_ok` is
whether the allocation of the device succeeds; the result is `some none` when
the function returns `NULL`. -/
def dp_device_open (device_calloc_ok : Bool) (fd : Int) (P : Platform) :
    Option (Option dp_device) :=
  if device_calloc_ok then (dp_device_probe P (calloc_device fd)).map some
  else some none

/-- The loop of `get_connector_by_name` (lines 156-161) from index `i`, with
`n = num_screens - i` iterations left; `strcmp` reads `connector->name`. -/
def get_connector_by_name_loop (dev : dp_device) (name : String) :
    Nat → Nat → Run (Option dp_screen)
  | 0, _ => pure none
  | n + 1, i => do
    let connector ← load_screen dev i
    let c ← deref connector
    let text ← deref c.name
    if text = name then pure connector
    else get_connector_by_name_loop dev name n (i + 1)

/-- The function `get_connector_by_name` (lines 151-164). -/
def get_connector_by_name (dev : dp_device) (name : String) : Run (Option dp_screen) :=
  get_connector_by_name_loop dev name dev.num_screens 0

/-- A call `dp_device_close` issues: a destroy operation on the pointer read
from a slot (`none`: `NULL`), the release of an array, the `close` of the
handle, or the release of the device. -/
inductive Release where
  | dp_plane_free (p : Option dp_plane)
  | free_planes
  | dp_crtc_free (c : Option dp_crtc)
  | free_crtcs
  | dp_screen_free (s : Option dp_screen)
  | free_screens
  | close (fd : Int)
  | free_device
deriving DecidableEq, Repr

/-- The pointers a loop `for (i = 0; i < num; i++) destroy(array[i])` reads,
from index `i` with `n = num - i` iterations left; `none` when a read leaves
the array. -/
def slots_read {α : Type} (array : List (Option α)) : Nat → Nat → Option (List (Option α))
  | 0, _ => some []
  | n + 1, i =>
    match array[i]? with
    | none => none
    | some p => (slots_read array n (i + 1)).map fun ps => p :: ps

/-- The function `dp_device_close` (lines 214-237) as the sequence of calls
it issues; `none` when a loop reads outside an array. -/
def dp_device_close (device : dp_device) : Option (List Release) :=
  (slots_read device.planes device.num_planes 0).bind fun planes =>
  (slots_read device.crtcs device.num_crtcs 0).bind fun crtcs =>
  (slots_read device.screens device.num_screens 0).bind fun screens =>
  some (planes.map Release.dp_plane_free ++ [Release.free_planes] ++
    crtcs.map Release.dp_crtc_free ++ [Release.free_crtcs] ++
    screens.map Release.dp_screen_free ++ [Release.free_screens] ++
    (if device.fd ≥ 0 then [Release.close device.fd] else []) ++
    [Release.free_device])

/-! ## Notions of the specification -/

/-- Whether an array slot holds a screen of type `t`. -/
def slot_has_type (t : Nat) : Option dp_screen → Bool
  | some s => s.type == t
  | none => false

/-- The rank of position `i` among the screens of type `t`: the number of
slots before `i` that hold a screen of type `t`. -/
def same_type_before (dev : dp_device) (i t : Nat) : Nat :=
  (dev.screens.take i).countP (slot_has_type t)

/-- Reading a decimal text back, one character at a time. -/
def read_decimal (acc : Nat) (cs : List Char) : Nat :=
  cs.foldl (fun a c => a * 10 + (c.toNat - 48)) acc

/-- The screens one run of the probing loop keeps, as `dp_screen_create`
returned them: those of the iterations where the screen is materialised and
its name allocated. -/
def kept_screens (dp_screen_create : Nat → Nat → Option dp_screen)
    (malloc_ok : Nat → Bool) : List Nat → Nat → List dp_screen
  | [], _ => []
  | c :: rest, i =>
    match dp_screen_create i c with
    | none => kept_screens dp_screen_create malloc_ok rest (i + 1)
    | some screen =>
      if malloc_ok i then screen :: kept_screens dp_screen_create malloc_ok rest (i + 1)
      else kept_screens dp_screen_create malloc_ok rest (i + 1)

/-- The naming rule on a list of stored screens: the screen at position `k`
is called after its type label and the number of screens of its type before
it. -/
def named (L : List dp_screen) : Prop :=
  ∀ k s, L[k]? = some s → ∃ label, connector_names[s.type]? = some label ∧
    s.name = some (format_name label ((L.take k).countP (fun x => x.type = s.type)))

/-- A slot the scan of `get_connector_by_id` steps over: it lies inside the
array, is filled when `DP_DBG` dereferences it, and does not hold `id`. -/
def steps_over (dbg : Bool) (dev : dp_device) (id k : Nat) : Prop :=
  ∃ o, dev.screens[k]? = some o ∧ (dbg = true → o ≠ none) ∧ ∀ s, o = some s → s.id ≠ id

/-- The planes of type `T` among the first `num_planes` slots, in array
order. -/
def planes_of_type (dev : dp_device) (T : Nat) : List dp_plane :=
  ((dev.planes.take dev.num_planes).filterMap id).filter (fun p => p.type = T)

/-- The id of the owning CRTC of the plane in slot `k`, when the slot holds a
plane that has one. -/
def owner_id (dev : dp_device) (k : Nat) : Option Nat :=
  match dev.planes[k]? with
  | some (some p) => p.crtc.map (fun c => c.id)
  | _ => none

/-- The planes owned by the CRTC of id `crtc_id` among the first `num_planes`
slots, in array order. -/
def owned_planes (dev : dp_device) (crtc_id : Nat) : List dp_plane :=
  ((dev.planes.take dev.num_planes).filterMap id).filter
    (fun p => p.crtc.map (fun c => c.id) = some crtc_id)

/-- The slots a probing loop that stores at the loop index fills: slot `i + k`
holds what the `(i + k)`-th materialisation returned for the `k`-th identity,
`none` when it failed. -/
def probed_slots {α : Type} (create : Nat → Nat → Option α) :
    List Nat → Nat → List (Option α)
  | [], _ => []
  | c :: rest, i => create i c :: probed_slots create rest (i + 1)

/-- The array `counts` as `dp_device_probe_screens` declares and clears it
(lines 30 and 35): `ARRAY_SIZE(connector_names)` counters, all zero. -/
def initial_counts : List Nat :=
  List.replicate connector_names.length 0

/-! ## Concrete devices -/

/-- The scenario of the specification: CRTCs 10 and 11, planes 5 and 6 owned
by CRTC 11 and plane 7 owned by CRTC 10 (type 1 is primary, 0 overlay). -/
def scenario : dp_device :=
  { fd := 3, screens := [], num_screens := 0,
    crtcs := [some ⟨10⟩, some ⟨11⟩], num_crtcs := 2,
    planes := [some ⟨5, 1, some ⟨11⟩⟩, some ⟨6, 0, some ⟨11⟩⟩, some ⟨7, 1, some ⟨10⟩⟩],
    num_planes := 3 }

/-- One screen, no CRTC (the CRTC resource query failed: `crtcs` is `NULL`
and `num_crtcs` is 0) and no plane. -/
def no_crtc_device : dp_device :=
  { fd := 3, screens := [some ⟨40, 1, some "VGA-0"⟩], num_screens := 1,
    crtcs := [], num_crtcs := 0, planes := [], num_planes := 0 }

/-- CRTCs 10 and 11; a plane without owning CRTC, then planes 5 and 6 owned
by CRTC 11. -/
def unbound_plane_device : dp_device :=
  { fd := 3, screens := [], num_screens := 0,
    crtcs := [some ⟨10⟩, some ⟨11⟩], num_crtcs := 2,
    planes := [some ⟨4, 2, none⟩, some ⟨5, 1, some ⟨11⟩⟩, some ⟨6, 0, some ⟨11⟩⟩],
    num_planes := 3 }

/-- Two VGA connectors, then one HDMI-A connector. -/
def vga_vga_hdmi : drmModeRes := { connectors := [31, 32, 33], crtcs := [] }

/-- Materialisation of the connectors of `vga_vga_hdmi`: types 1, 1, 11. -/
def vga_vga_hdmi_create (i c : Nat) : Option dp_screen :=
  some { id := c, type := if i < 2 then 1 else 11, name := none }

/-- The device screen probing builds from `vga_vga_hdmi`. -/
def vga_vga_hdmi_device : dp_device :=
  { calloc_device 3 with
    screens := [some ⟨31, 1, some "VGA-0"⟩, some ⟨32, 1, some "VGA-1"⟩,
                some ⟨33, 11, some "HDMI-A-0"⟩]
    num_screens := 3 }

/-- The scenario with the three screens of `vga_vga_hdmi_device`. -/
def scenario_with_screens : dp_device :=
  { scenario with screens := vga_vga_hdmi_device.screens, num_screens := 3 }

/-- CRTCs 10 and 11 as the platform lists them. -/
def two_crtcs : drmModeRes := { connectors := [], crtcs := [10, 11] }

/-- Materialisation of the CRTCs of `two_crtcs` in which the first call
fails. -/
def first_crtc_fails (i c : Nat) : Option dp_crtc :=
  if i = 0 then none else some { id := c }

/-- The device CRTC probing builds from `two_crtcs` when the first
materialisation fails: CRTC 11 sits in slot 1 and `num_crtcs` is 1. -/
def gap_device : dp_device :=
  { calloc_device 3 with crtcs := [none, some ⟨11⟩], num_crtcs := 1 }

/-- A platform whose connector query fails, whose CRTC list is 10, 11 with the
first materialisation failing, and whose planes 5 and 6 both materialise,
owned by CRTC 11. -/
def gap_platform : Platform :=
  { connector_res := none
    screens_calloc_ok := true
    dp_screen_create := fun _ _ => none
    malloc_ok := fun _ => true
    crtc_res := some two_crtcs
    crtcs_calloc_ok := true
    dp_crtc_create := first_crtc_fails
    plane_res := some { planes := [5, 6] }
    planes_calloc_ok := true
    dp_plane_create := fun _ c => some { id := c, type := 1, crtc := some ⟨11⟩ } }

/-- The device `dp_device_open` builds on `gap_platform`: CRTC 11 sits in
slot 1 and `num_crtcs` is 1. -/
def gap_platform_device : dp_device :=
  { fd := 3, screens := [], num_screens := 0,
    crtcs := [none, some ⟨11⟩], num_crtcs := 1,
    planes := [some ⟨5, 1, some ⟨11⟩⟩, some ⟨6, 1, some ⟨11⟩⟩], num_planes := 2 }

/-- One DSI connector (type 16, the last entry of the label table). -/
def one_dsi : drmModeRes := { connectors := [70], crtcs := [] }

/-- A CRTC array with an empty slot ahead of CRTC 11, both below
`num_crtcs`. -/
def sparse_crtcs_device : dp_device :=
  { calloc_device 3 with crtcs := [none, some ⟨11⟩], num_crtcs := 2 }

/-- Name allocation that fails in the second iteration only. -/
def malloc_second_fails (i : Nat) : Bool :=
  i != 1

/-! ## Decimal text -/

theorem digitChar_ne_hyphen (d : Nat) (h : d < 10) : Nat.digitChar d ≠ '-' := by
  interval_cases d <;> decide

theorem digitChar_value (d : Nat) (h : d < 10) : (Nat.digitChar d).toNat - 48 = d := by
  interval_cases d <;> rfl

theorem toDigitsCore_read (fuel : Nat) :
    ∀ (n : Nat) (ds : List Char), n < fuel →
      read_decimal 0 (Nat.toDigitsCore 10 fuel n ds) = read_decimal n ds := by
  induction fuel with
  | zero => intro n ds h; omega
  | succ f ih =>
    intro n ds h
    have hd : (Nat.digitChar (n % 10)).toNat - 48 = n % 10 :=
      digitChar_value _ (Nat.mod_lt _ (by decide))
    by_cases h0 : n / 10 = 0
    · simp only [Nat.toDigitsCore, h0, if_true]
      simp only [read_decimal, List.foldl_cons, hd]
      congr 1
      omega
    · simp only [Nat.toDigitsCore, h0, if_false]
      rw [ih (n / 10) _ (by omega)]
      simp only [read_decimal, List.foldl_cons, hd]
      congr 1
      omega

theorem toDigitsCore_no_hyphen (fuel : Nat) :
    ∀ (n : Nat) (ds : List Char), '-' ∉ ds → '-' ∉ Nat.toDigitsCore 10 fuel n ds := by
  induction fuel with
  | zero => intro n ds h; simpa [Nat.toDigitsCore] using h
  | succ f ih =>
    intro n ds h
    have hd : Nat.digitChar (n % 10) ≠ '-' :=
      digitChar_ne_hyphen _ (Nat.mod_lt _ (by decide))
    have h2 : '-' ∉ Nat.digitChar (n % 10) :: ds := by
      simp only [List.mem_cons, not_or]
      exact ⟨fun e => hd e.symm, h⟩
    by_cases h0 : n / 10 = 0
    · simpa only [Nat.toDigitsCore, h0, if_true] using h2
    · simpa only [Nat.toDigitsCore, h0, if_false] using ih (n / 10) _ h2

theorem toString_data (n : Nat) : (toString n).data = Nat.toDigits 10 n := rfl

theorem toString_no_hyphen (n : Nat) : '-' ∉ (toString n).data := by
  rw [toString_data]
  exact toDigitsCore_no_hyphen _ _ _ (by simp)

theorem toString_nat_inj (a b : Nat) (h : toString a = toString b) : a = b := by
  have h2 : (toString a).data = (toString b).data := by rw [h]
  rw [toString_data, toString_data] at h2
  have ha := toDigitsCore_read (a + 1) a [] (by omega)
  have hb := toDigitsCore_read (b + 1) b [] (by omega)
  simp only [Nat.toDigits] at h2
  rw [h2, hb] at ha
  simpa [read_decimal] using ha.symm

/-- A text is cut in one way only at its last separator. -/
theorem append_sep_inj {α : Type} (x : α) :
    ∀ (l₁ l₂ d₁ d₂ : List α), x ∉ d₁ → x ∉ d₂ →
      l₁ ++ x :: d₁ = l₂ ++ x :: d₂ → l₁ = l₂ ∧ d₁ = d₂ := by
  intro l₁
  induction l₁ with
  | nil =>
    intro l₂ d₁ d₂ h1 h2 h
    cases l₂ with
    | nil => simpa using h
    | cons y ys =>
      simp only [List.nil_append, List.cons_append, List.cons.injEq] at h
      exact absurd (h.2 ▸ (by simp : x ∈ ys ++ x :: d₂)) h1
  | cons z zs ih =>
    intro l₂ d₁ d₂ h1 h2 h
    cases l₂ with
    | nil =>
      simp only [List.nil_append, List.cons_append, List.cons.injEq] at h
      exact absurd (h.2 ▸ (by simp : x ∈ zs ++ x :: d₁)) h2
    | cons y ys =>
      simp only [List.cons_append, List.cons.injEq] at h
      obtain ⟨e1, e2⟩ := ih ys d₁ d₂ h1 h2 h.2
      exact ⟨by rw [h.1, e1], e2⟩

theorem format_name_data (type : String) (count : Nat) :
    (format_name type count).data = type.data ++ '-' :: (toString count).data := by
  simp [format_name, String.data_append]

theorem format_name_inj (t₁ t₂ : String) (a b : Nat)
    (h : format_name t₁ a = format_name t₂ b) : t₁ = t₂ ∧ a = b := by
  have h2 : (format_name t₁ a).data = (format_name t₂ b).data := by rw [h]
  rw [format_name_data, format_name_data] at h2
  obtain ⟨e1, e2⟩ := append_sep_inj '-' _ _ _ _ (toString_no_hyphen a) (toString_no_hyphen b) h2
  exact ⟨String.ext e1, toString_nat_inj a b (String.ext e2)⟩

/-- The second `snprintf` call writes the whole text: the buffer has room for
the length the first call reported. -/
theorem snprintf_full (type : String) (count : Nat) :
    (snprintf ((snprintf 0 type count).1 + 1) type count).2 = format_name type count := by
  unfold snprintf
  show String.mk (List.take ((format_name type count).data.length + 1 - 1)
    (format_name type count).data) = format_name type count
  rw [Nat.add_sub_cancel, List.take_length]

/-! ## Screen probing: the loop invariant -/

theorem set_append_cons {α : Type} (xs : List α) (a b : α) (ys : List α) :
    (xs ++ a :: ys).set xs.length b = xs ++ b :: ys := by
  induction xs with
  | nil => rfl
  | cons x xs ih => simp [ih]

theorem named_snoc (L : List dp_screen) (s : dp_screen) (label : String)
    (h : named L) (hl : connector_names[s.type]? = some label)
    (hn : s.name = some (format_name label (L.countP (fun x => x.type = s.type)))) :
    named (L ++ [s]) := by
  intro k x hk
  by_cases hlt : k < L.length
  · rw [List.getElem?_append_left hlt] at hk
    rw [List.take_append_of_le_length (Nat.le_of_lt hlt)]
    exact h k x hk
  · have hk2 : k < (L ++ [s]).length := by
      by_contra hc
      rw [List.getElem?_eq_none (Nat.le_of_not_lt hc)] at hk
      cases hk
    have hke : k = L.length := by
      simp only [List.length_append, List.length_singleton] at hk2
      omega
    subst hke
    have hx : x = s := by simpa using hk.symm
    subst hx
    refine ⟨label, hl, ?_⟩
    rw [hn]
    simp

theorem probe_screens_loop_spec (dp_screen_create : Nat → Nat → Option dp_screen)
    (malloc_ok : Nat → Bool) :
    ∀ (rest : List Nat) (i : Nat) (counts : List Nat) (L : List dp_screen) (pad : Nat)
      (d : dp_device),
      d.screens = L.map some ++ List.replicate (rest.length + pad) none →
      d.num_screens = L.length →
      counts.length = connector_names.length →
      (∀ t, t < connector_names.length →
        counts[t]? = some (L.countP (fun s => s.type = t))) →
      L.length + rest.length < 2 ^ 32 →
      (∀ k c s, rest[k]? = some c → dp_screen_create (i + k) c = some s →
        s.type < connector_names.length) →
      named L →
      ∃ L', dp_device_probe_screens_loop dp_screen_create malloc_ok rest i counts d =
          some { d with
            screens := L'.map some ++
              List.replicate (L.length + rest.length + pad - L'.length) none
            num_screens := L'.length } ∧
        L'.length ≤ L.length + rest.length ∧ named L' ∧
        L'.map (fun s => (s.id, s.type)) =
          (L ++ kept_screens dp_screen_create malloc_ok rest i).map
            (fun s => (s.id, s.type)) := by
  intro rest
  induction rest with
  | nil =>
    intro i counts L pad d hs hn _ _ _ _ hnamed
    refine ⟨L, ?_, by simp, hnamed, by simp [kept_screens]⟩
    simp only [dp_device_probe_screens_loop, List.length_nil, Nat.add_zero,
      Nat.add_sub_cancel_left]
    simp only [List.length_nil, Nat.zero_add] at hs
    rw [← hs, ← hn]
  | cons c rest ih =>
    intro i counts L pad d hs hn hcl hcounts hlen htype hnamed
    have htype' : ∀ k c' s, rest[k]? = some c' → dp_screen_create (i + 1 + k) c' = some s →
        s.type < connector_names.length := by
      intro k c' s hk hc
      refine htype (k + 1) c' s (by simpa using hk) ?_
      rw [← hc]; congr 1; omega
    have hs' : d.screens = L.map some ++ List.replicate (rest.length + (pad + 1)) none := by
      rw [hs]; congr 2; simp only [List.length_cons]; omega
    have skip : ∃ L', dp_device_probe_screens_loop dp_screen_create malloc_ok rest (i + 1)
          counts d =
          some { d with
            screens := L'.map some ++
              List.replicate (L.length + (c :: rest).length + pad - L'.length) none
            num_screens := L'.length } ∧
        L'.length ≤ L.length + (c :: rest).length ∧ named L' ∧
        L'.map (fun s => (s.id, s.type)) =
          (L ++ kept_screens dp_screen_create malloc_ok rest (i + 1)).map
            (fun s => (s.id, s.type)) := by
      obtain ⟨L', h1, h2, h3, h4⟩ := ih (i + 1) counts L (pad + 1) d hs' hn hcl hcounts
        (by simp only [List.length_cons] at hlen; omega) htype' hnamed
      refine ⟨L', ?_, by simp only [List.length_cons]; omega, h3, h4⟩
      rw [h1]
      simp only [List.length_cons]
      have : L.length + rest.length + (pad + 1) - L'.length =
          L.length + (rest.length + 1) + pad - L'.length := by omega
      rw [this]
    cases hc : dp_screen_create i c with
    | none =>
      simpa only [dp_device_probe_screens_loop, kept_screens, hc] using skip
    | some screen =>
      have hty : screen.type < connector_names.length :=
        htype 0 c screen (by simp) (by simpa using hc)
      obtain ⟨label, hlabel⟩ : ∃ label, connector_names[screen.type]? = some label :=
        ⟨connector_names[screen.type], List.getElem?_eq_getElem hty⟩
      have hcount := hcounts screen.type hty
      cases hm : malloc_ok i with
      | false =>
        simpa only [dp_device_probe_screens_loop, kept_screens, hc, hlabel, hcount, hm,
          Bool.false_eq_true, if_false] using skip
      | true =>
        have hroom : d.num_screens < d.screens.length := by
          rw [hn, hs]
          simp only [List.length_append, List.length_map, List.length_replicate,
            List.length_cons]
          omega
        let s' : dp_screen :=
          { screen with name := some (format_name label
              (L.countP (fun x => x.type = screen.type))) }
        have hle : L.countP (fun x => decide (x.type = screen.type)) ≤ L.length :=
          List.countP_le_length _
        have hwrap : (L.countP (fun x => decide (x.type = screen.type)) + 1) % 2 ^ 32 =
            L.countP (fun x => decide (x.type = screen.type)) + 1 := by
          apply Nat.mod_eq_of_lt
          simp only [List.length_cons] at hlen
          omega
        have hset : d.screens.set d.num_screens (some s') =
            (L ++ [s']).map some ++ List.replicate (rest.length + pad) none := by
          rw [hs, hn]
          have e : (rest.length + 1 + pad) = (rest.length + pad) + 1 := by omega
          simp only [List.length_cons, e, List.replicate_succ]
          have := set_append_cons (L.map some) none (some s')
            (List.replicate (rest.length + pad) none)
          simp only [List.length_map] at this
          rw [this]
          simp
        have hcounts' : ∀ t, t < connector_names.length →
            (counts.set screen.type (L.countP (fun x => decide (x.type = screen.type)) + 1))[t]?
              = some ((L ++ [s']).countP (fun x => decide (x.type = t))) := by
          intro t ht
          by_cases e : screen.type = t
          · subst e
            rw [List.getElem?_set_self (by rw [hcl]; exact ht)]
            simp [List.countP_append, s']
          · rw [List.getElem?_set_ne e, hcounts t ht]
            simp [List.countP_append, s', e]
        obtain ⟨L', h1, h2, h3, h4⟩ := ih (i + 1)
          (counts.set screen.type (L.countP (fun x => decide (x.type = screen.type)) + 1))
          (L ++ [s']) pad
          { d with screens := d.screens.set d.num_screens (some s')
                   num_screens := d.num_screens + 1 }
          hset (by simp [hn]) (by simpa using hcl) hcounts'
          (by simp only [List.length_cons] at hlen
              simp only [List.length_append, List.length_singleton]; omega)
          htype' (named_snoc L s' label hnamed hlabel rfl)
        refine ⟨L', ?_, ?_, h3, ?_⟩
        · simp only [dp_device_probe_screens_loop, hc, hlabel, hcount, hm, if_true, hroom,
            snprintf_full, hwrap]
          rw [h1]
          simp only [List.length_append, List.length_singleton, List.length_cons,
            List.length_nil, Nat.zero_add]
          have : L.length + 1 + rest.length + pad - L'.length =
              L.length + (rest.length + 1) + pad - L'.length := by omega
          rw [this]
        · simp only [List.length_append, List.length_singleton] at h2
          simp only [List.length_cons]; omega
        · rw [h4]
          simp [kept_screens, hc, hm, s']

theorem connector_names_nodup : connector_names.Nodup := by
  decide

theorem connector_names_inj (a b : Nat) (l : String)
    (ha : connector_names[a]? = some l) (hb : connector_names[b]? = some l) : a = b := by
  by_contra hne
  have ha' : a < connector_names.length := by
    by_contra hc
    rw [List.getElem?_eq_none (Nat.le_of_not_lt hc)] at ha
    cases ha
  rcases Nat.lt_or_gt_of_ne hne with h | h
  · exact (List.nodup_iff_getElem?_ne_getElem?.mp connector_names_nodup a b h
      (by by_contra hc; rw [List.getElem?_eq_none (Nat.le_of_not_lt hc)] at hb; cases hb))
      (ha.trans hb.symm)
  · exact (List.nodup_iff_getElem?_ne_getElem?.mp connector_names_nodup b a h ha')
      (hb.trans ha.symm)

theorem countP_take_lt (L : List dp_screen) (p : dp_screen → Bool) (i j : Nat) (s : dp_screen)
    (hij : i < j) (hs : L[i]? = some s) (hp : p s = true) :
    (L.take i).countP p < (L.take j).countP p := by
  have e1 : L.take j = L.take (i + 1) ++ (L.take j).drop (i + 1) := by
    have := (List.take_append_drop (i + 1) (L.take j)).symm
    rwa [List.take_take, Nat.min_eq_left (by omega)] at this
  rw [e1, List.take_succ, hs]
  simp [List.countP_append, hp]

theorem named_distinct (L : List dp_screen) (h : named L) (i j : Nat) (s t : dp_screen)
    (hij : i < j) (hs : L[i]? = some s) (ht : L[j]? = some t) : s.name ≠ t.name := by
  intro e
  obtain ⟨l₁, hl₁, hn₁⟩ := h i s hs
  obtain ⟨l₂, hl₂, hn₂⟩ := h j t ht
  rw [hn₁, hn₂] at e
  obtain ⟨el, ek⟩ := format_name_inj _ _ _ _ (Option.some.inj e)
  subst el
  have ety : s.type = t.type := connector_names_inj _ _ _ hl₁ hl₂
  rw [← ety] at ek
  have := countP_take_lt L (fun x => decide (x.type = s.type)) i j s hij hs (by simp)
  omega

theorem same_type_before_dense (dev : dp_device) (L : List dp_screen)
    (rest : List (Option dp_screen)) (hs : dev.screens = L.map some ++ rest)
    (i t : Nat) (hi : i ≤ L.length) :
    same_type_before dev i t = (L.take i).countP (fun x => decide (x.type = t)) := by
  unfold same_type_before
  rw [hs, List.take_append_of_le_length (by simpa using hi), ← List.map_take, List.countP_map]
  congr 1

/-- What screen probing leaves in a freshly allocated device: a dense array
of named screens. -/
theorem probe_screens_result (res : Option drmModeRes) (calloc_ok : Bool)
    (dp_screen_create : Nat → Nat → Option dp_screen) (malloc_ok : Nat → Bool) (fd : Int)
    (hcount : ∀ r, res = some r → r.connectors.length < 2 ^ 32)
    (htype : ∀ r, res = some r → ∀ i c s, r.connectors[i]? = some c →
      dp_screen_create i c = some s → s.type < connector_names.length) :
    ∃ (L : List dp_screen) (pad : List (Option dp_screen)),
      dp_device_probe_screens res calloc_ok dp_screen_create malloc_ok (calloc_device fd) =
        some { calloc_device fd with screens := L.map some ++ pad, num_screens := L.length } ∧
      named L ∧
      (∀ r, res = some r → L.length ≤ r.connectors.length ∧
        (calloc_ok = true → pad = List.replicate (r.connectors.length - L.length) none ∧
          L.map (fun s => (s.id, s.type)) =
            (kept_screens dp_screen_create malloc_ok r.connectors 0).map
              (fun s => (s.id, s.type)))) ∧
      ((res = none ∨ calloc_ok = false) → L = [] ∧ pad = []) := by
  cases res with
  | none =>
    refine ⟨[], [], rfl, ?_, ?_, fun _ => ⟨rfl, rfl⟩⟩
    · intro k s h
      simp at h
    · intro r h
      cases h
  | some r =>
    cases calloc_ok with
    | false =>
      refine ⟨[], [], rfl, ?_, ?_, fun _ => ⟨rfl, rfl⟩⟩
      · intro k s h
        simp at h
      · intro r' _
        refine ⟨by simp, ?_⟩
        intro h
        cases h
    | true =>
      obtain ⟨L, h1, h2, h3, h4⟩ := probe_screens_loop_spec dp_screen_create malloc_ok
        r.connectors 0 (List.replicate connector_names.length 0) [] 0
        { calloc_device fd with screens := List.replicate r.connectors.length none }
        (by simp) rfl (by simp)
        (fun t ht => by simp [ht])
        (by simpa using hcount r rfl)
        (fun k c s hk hc => htype r rfl k c s hk (by simpa using hc))
        (fun k s h => by simp at h)
      refine ⟨L, List.replicate (r.connectors.length - L.length) none, ?_, h3, ?_, ?_⟩
      · simp only [dp_device_probe_screens, if_true]
        rw [h1]
        simp
      · intro r' hr
        cases hr
        exact ⟨by simpa using h2, fun _ => ⟨rfl, by simpa using h4⟩⟩
      · intro h
        rcases h with h | h <;> cases h

/-- Claim C1. After `dp_device_probe_screens` on the freshly allocated device,
for any connector list and any outcome of the materialisations and name
allocations (screen types within the label table, fewer than `2 ^ 32`
connectors): every one of the first `num_screens` slots holds a screen whose
name is its type label, a hyphen and the decimal rank of the screen among the
stored screens of its type, and two different slots never hold the same
name. -/
theorem probe_screens_names (res : Option drmModeRes) (calloc_ok : Bool)
    (dp_screen_create : Nat → Nat → Option dp_screen) (malloc_ok : Nat → Bool) (fd : Int)
    (hcount : ∀ r, res = some r → r.connectors.length < 2 ^ 32)
    (htype : ∀ r, res = some r → ∀ i c s, r.connectors[i]? = some c →
      dp_screen_create i c = some s → s.type < connector_names.length) :
    ∃ dev, dp_device_probe_screens res calloc_ok dp_screen_create malloc_ok
        (calloc_device fd) = some dev ∧
      (∀ i, i < dev.num_screens → ∃ s label, dev.screens[i]? = some (some s) ∧
        connector_names[s.type]? = some label ∧
        s.name = some (label ++ "-" ++ toString (same_type_before dev i s.type))) ∧
      (∀ i j s t, i < dev.num_screens → j < dev.num_screens →
        dev.screens[i]? = some (some s) → dev.screens[j]? = some (some t) →
        i ≠ j → s.name ≠ t.name) := by
  obtain ⟨L, pad, h1, h2, -, -⟩ :=
    probe_screens_result res calloc_ok dp_screen_create malloc_ok fd hcount htype
  refine ⟨_, h1, ?_, ?_⟩
  · intro i hi
    have hi' : i < L.length := hi
    have hget : L[i]? = some L[i] := List.getElem?_eq_getElem hi'
    obtain ⟨label, hl, hn⟩ := h2 i L[i] hget
    refine ⟨L[i], label, ?_, hl, ?_⟩
    · show (L.map some ++ pad)[i]? = _
      rw [List.getElem?_append_left (by simpa using hi')]
      simp [hget]
    · rw [hn, same_type_before_dense _ L pad rfl i _ (Nat.le_of_lt hi')]
      rfl
  · intro i j s t hi hj hs ht hij
    have hi' : i < L.length := hi
    have hj' : j < L.length := hj
    have hs' : L[i]? = some s := by
      have : (L.map some ++ pad)[i]? = some (some s) := hs
      rw [List.getElem?_append_left (by simpa using hi')] at this
      simpa using this
    have ht' : L[j]? = some t := by
      have : (L.map some ++ pad)[j]? = some (some t) := ht
      rw [List.getElem?_append_left (by simpa using hj')] at this
      simpa using this
    rcases Nat.lt_or_gt_of_ne hij with h | h
    · exact named_distinct L h2 i j s t h hs' ht'
    · exact fun e => named_distinct L h2 j i t s h ht' hs' e.symm

/-! ## Outcomes of runs -/

@[simp]
theorem out_pure {α : Type} (a : α) : (pure a : Run α).out = some a := rfl

@[simp]
theorem reads_pure {α : Type} (a : α) : (pure a : Run α).reads = [] := rfl

@[simp]
theorem out_bind {α β : Type} (r : Run α) (f : α → Run β) :
    (r >>= f).out = r.out.bind (fun a => (f a).out) := by
  show (Run.bind r f).out = _
  unfold Run.bind
  cases r.out <;> rfl

@[simp]
theorem out_deref {α : Type} (p : Option α) : (deref p).out = p := rfl

@[simp]
theorem out_dbg_deref {α : Type} (dbg : Bool) (p : Option α) :
    (dbg_deref dbg p).out = if dbg = true then p.map (fun _ => ()) else some () := by
  cases dbg <;> rfl

@[simp]
theorem out_load_screen (dev : dp_device) (i : Nat) :
    (load_screen dev i).out = dev.screens[i]? := rfl

@[simp]
theorem out_load_crtc (dev : dp_device) (i : Nat) :
    (load_crtc dev i).out = dev.crtcs[i]? := rfl

@[simp]
theorem out_load_plane (dev : dp_device) (i : Nat) :
    (load_plane dev i).out = dev.planes[i]? := rfl

/-! ## Lookup of a screen by id -/

theorem get_connector_by_id_loop_miss (dbg : Bool) (dev : dp_device) (id : Nat) :
    ∀ (n i : Nat), (∀ k, i ≤ k → k < i + n → steps_over dbg dev id k) →
      (get_connector_by_id_loop dbg dev id n i).out = some none := by
  intro n
  induction n with
  | zero => intro i _; rfl
  | succ n ih =>
    intro i h
    obtain ⟨o, ho, hd, hid⟩ := h i (Nat.le_refl _) (by omega)
    have hrec := ih (i + 1) (fun k h1 h2 => h k (by omega) (by omega))
    cases o with
    | none =>
      have hdbg : dbg = false := by
        cases dbg with
        | false => rfl
        | true => exact absurd rfl (hd rfl)
      subst hdbg
      simp [get_connector_by_id_loop, ho, hrec]
    | some s =>
      have := hid s rfl
      cases dbg <;> simp [get_connector_by_id_loop, ho, hrec, this]

theorem get_connector_by_id_loop_hit (dbg : Bool) (dev : dp_device) (id : Nat) :
    ∀ (n i j : Nat) (s : dp_screen), i ≤ j → j < i + n →
      dev.screens[j]? = some (some s) → s.id = id →
      (∀ k, i ≤ k → k < j → steps_over dbg dev id k) →
      (get_connector_by_id_loop dbg dev id n i).out = some (some s) := by
  intro n
  induction n with
  | zero => intro i j s h1 h2; omega
  | succ n ih =>
    intro i j s h1 h2 hs hid hbefore
    by_cases e : i = j
    · subst e
      cases dbg <;> simp [get_connector_by_id_loop, hs, hid]
    · obtain ⟨o, ho, hd, hne⟩ := hbefore i (Nat.le_refl _) (by omega)
      have hrec := ih (i + 1) j s (by omega) (by omega) hs hid
        (fun k h1 h2 => hbefore k (by omega) h2)
      cases o with
      | none =>
        have hdbg : dbg = false := by
          cases dbg with
          | false => rfl
          | true => exact absurd rfl (hd rfl)
        subst hdbg
        simp [get_connector_by_id_loop, ho, hrec]
      | some s' =>
        have := hne s' rfl
        cases dbg <;> simp [get_connector_by_id_loop, ho, hrec, this]

/-- Claim C2. On a device whose first `num_screens` slots lie inside the array
(and, where `DP_DBG` dereferences every slot, are filled) and whose stored
screens have pairwise distinct ids, `get_connector_by_id` returns each stored
screen for its own id, and `NULL` for an id no stored screen carries. -/
theorem get_connector_by_id_spec (dbg : Bool) (dev : dp_device)
    (hslots : ∀ k, k < dev.num_screens →
      ∃ o, dev.screens[k]? = some o ∧ (dbg = true → o ≠ none))
    (hdistinct : ∀ i j s t, i < dev.num_screens → j < dev.num_screens →
      dev.screens[i]? = some (some s) → dev.screens[j]? = some (some t) →
      s.id = t.id → i = j) :
    (∀ i s, i < dev.num_screens → dev.screens[i]? = some (some s) →
      (get_connector_by_id dbg dev s.id).out = some (some s)) ∧
    (∀ id, (∀ i s, i < dev.num_screens → dev.screens[i]? = some (some s) → s.id ≠ id) →
      (get_connector_by_id dbg dev id).out = some none) := by
  constructor
  · intro i s hi hs
    refine get_connector_by_id_loop_hit dbg dev s.id dev.num_screens 0 i s (Nat.zero_le _)
      (by omega) hs rfl ?_
    intro k _ hk
    obtain ⟨o, ho, hd⟩ := hslots k (by omega)
    refine ⟨o, ho, hd, ?_⟩
    intro s' hs' e
    subst hs'
    have := hdistinct k i s' s (by omega) hi ho hs e
    omega
  · intro id hid
    refine get_connector_by_id_loop_miss dbg dev id dev.num_screens 0 ?_
    intro k _ hk
    obtain ⟨o, ho, hd⟩ := hslots k (by omega)
    refine ⟨o, ho, hd, ?_⟩
    intro s' hs'
    subst hs'
    exact hid k s' (by omega) ho

/-! ## Lookup of a plane by type -/

theorem find_plane_by_type_loop_spec (dbg : Bool) (dev : dp_device) (T : Nat) :
    ∀ (n i index : Nat),
      (∀ k, i ≤ k → k < i + n → ∃ p, dev.planes[k]? = some (some p)) →
      (dp_device_find_plane_by_type_loop dbg dev T n i index).out =
        some ((((dev.planes.drop i).take n).filterMap id).filter
          (fun p => p.type = T))[index]? := by
  intro n
  induction n with
  | zero => intro i index _; simp [dp_device_find_plane_by_type_loop]
  | succ n ih =>
    intro i index h
    obtain ⟨p, hp⟩ := h i (Nat.le_refl _) (by omega)
    have hlt : i < dev.planes.length := by
      by_contra hc
      rw [List.getElem?_eq_none (Nat.le_of_not_lt hc)] at hp
      cases hp
    have hget : dev.planes[i] = some p := by
      rw [List.getElem?_eq_getElem hlt] at hp
      exact Option.some.inj hp
    have hdrop : dev.planes.drop i = some p :: dev.planes.drop (i + 1) := by
      rw [List.drop_eq_getElem_cons hlt, hget]
    have hrec := fun index => ih (i + 1) index (fun k h1 h2 => h k (by omega) (by omega))
    rw [hdrop, List.take_succ_cons, List.filterMap_cons_some (by rfl : id (some p) = some p)]
    by_cases ht : p.type = T
    · rw [List.filter_cons_of_pos (by simpa using ht)]
      cases index with
      | zero => cases dbg <;> simp [dp_device_find_plane_by_type_loop, hp, ht]
      | succ m =>
        have := hrec m
        cases dbg <;> simp [dp_device_find_plane_by_type_loop, hp, ht, this]
    · rw [List.filter_cons_of_neg (by simpa using ht)]
      have := hrec index
      cases dbg <;> simp [dp_device_find_plane_by_type_loop, hp, ht, this]

/-- Claim C4. On a device whose first `num_planes` plane slots are all filled,
`dp_device_find_plane_by_type(dev, T, k)` returns the `k`-th plane of type `T`
in array order when there is one, and `NULL` when `k` is at least the number
of planes of type `T`. -/
theorem find_plane_by_type_spec (dbg : Bool) (dev : dp_device) (T k : Nat)
    (hfilled : ∀ i, i < dev.num_planes → ∃ p, dev.planes[i]? = some (some p)) :
    (∀ p, (planes_of_type dev T)[k]? = some p →
      (dp_device_find_plane_by_type dbg dev T k).out = some (some p)) ∧
    ((planes_of_type dev T).length ≤ k →
      (dp_device_find_plane_by_type dbg dev T k).out = some none) := by
  have h := find_plane_by_type_loop_spec dbg dev T dev.num_planes 0 k
    (fun i _ hi => hfilled i (by omega))
  rw [List.drop_zero] at h
  constructor
  · intro p hp
    unfold dp_device_find_plane_by_type
    rw [h]
    exact congrArg some hp
  · intro hk
    unfold dp_device_find_plane_by_type
    rw [h]
    exact congrArg some (List.getElem?_eq_none hk)

/-! ## Lookup of a plane by CRTC index and offset -/

@[simp]
theorem out_plane_crtc_id (dev : dp_device) (i : Nat) :
    (plane_crtc_id dev i).out = owner_id dev i := by
  unfold plane_crtc_id owner_id
  simp only [out_bind, out_load_plane, out_deref, out_pure]
  cases dev.planes[i]? with
  | none => rfl
  | some o =>
    cases o with
    | none => rfl
    | some p => cases h : p.crtc <;> simp [h]

theorem find_plane_by_index_loop_step (dbg : Bool) (dev : dp_device) (c : dp_crtc)
    (plane_index n i x : Nat) (hx : owner_id dev i = some x) (hne : x ≠ c.id) :
    (dp_device_find_plane_by_index_loop dbg dev (some c) plane_index (n + 1) i).out =
      (dp_device_find_plane_by_index_loop dbg dev (some c) plane_index n (i + 1)).out := by
  have : ¬ c.id = x := fun e => hne e.symm
  simp [dp_device_find_plane_by_index_loop, hx, this]

theorem find_plane_by_index_loop_skip (dbg : Bool) (dev : dp_device) (c : dp_crtc)
    (plane_index : Nat) :
    ∀ (n i j : Nat), i ≤ j → j ≤ i + n →
      (∀ k, i ≤ k → k < j → ∃ x, owner_id dev k = some x ∧ x ≠ c.id) →
      (dp_device_find_plane_by_index_loop dbg dev (some c) plane_index n i).out =
        (dp_device_find_plane_by_index_loop dbg dev (some c) plane_index (i + n - j) j).out := by
  intro n
  induction n with
  | zero =>
    intro i j h1 h2 _
    have : j = i := by omega
    subst this
    simp
  | succ n ih =>
    intro i j h1 h2 h
    by_cases e : j = i
    · subst e
      have : j + (n + 1) - j = n + 1 := by omega
      rw [this]
    · obtain ⟨x, hx, hne⟩ := h i (Nat.le_refl _) (by omega)
      rw [find_plane_by_index_loop_step dbg dev c plane_index n i x hx hne,
        ih (i + 1) j (by omega) (by omega) (fun k h1 h2 => h k (by omega) h2)]
      have : i + 1 + n - j = i + (n + 1) - j := by omega
      rw [this]

/-- The scan ends with `NULL` when every plane has an owner other than the
CRTC. -/
theorem find_plane_by_index_loop_miss (dbg : Bool) (dev : dp_device) (c : dp_crtc)
    (plane_index n i : Nat)
    (h : ∀ k, i ≤ k → k < i + n → ∃ x, owner_id dev k = some x ∧ x ≠ c.id) :
    (dp_device_find_plane_by_index_loop dbg dev (some c) plane_index n i).out = some none := by
  rw [find_plane_by_index_loop_skip dbg dev c plane_index n i (i + n) (by omega)
    (Nat.le_refl _) h]
  have : i + n - (i + n) = 0 := by omega
  rw [this]
  rfl

/-- The iteration at the first plane the CRTC owns: the plane `plane_index`
slots further (modulo `2 ^ 32`) is returned when that position is below
`num_planes`. -/
theorem find_plane_by_index_loop_hit (dbg : Bool) (dev : dp_device) (c : dp_crtc)
    (plane_index n j : Nat) (q : dp_plane) (hj : owner_id dev j = some c.id)
    (hin : (j + plane_index) % 2 ^ 32 < dev.num_planes)
    (hq : dev.planes[(j + plane_index) % 2 ^ 32]? = some (some q)) :
    (dp_device_find_plane_by_index_loop dbg dev (some c) plane_index (n + 1) j).out =
      some (some q) := by
  have hin' : ¬ dev.num_planes ≤ (j + plane_index) % 2 ^ 32 := by omega
  simp only [Nat.reducePow] at hin' hq
  cases dbg <;> simp [dp_device_find_plane_by_index_loop, hj, hin', hq]

/-- The iteration at the first plane the CRTC owns: `NULL` when the position
`plane_index` slots further (modulo `2 ^ 32`) is not below `num_planes`. -/
theorem find_plane_by_index_loop_hit_null (dbg : Bool) (dev : dp_device) (c : dp_crtc)
    (plane_index n j : Nat) (hj : owner_id dev j = some c.id)
    (hin : dev.num_planes ≤ (j + plane_index) % 2 ^ 32) :
    (dp_device_find_plane_by_index_loop dbg dev (some c) plane_index (n + 1) j).out =
      some none := by
  simp only [Nat.reducePow] at hin
  simp [dp_device_find_plane_by_index_loop, hj, hin]

/-- The range test lets an index below `num_crtcs` through. -/
theorem crtc_index_in_range (num_crtcs crtc_index : Nat) (hn : num_crtcs < 2 ^ 32)
    (h : crtc_index < num_crtcs) :
    ¬ crtc_index > (num_crtcs + 2 ^ 32 - 1) % 2 ^ 32 := by
  omega

/-- The lookup on an in-range index whose CRTC slot is filled, when `j` is
the first plane the CRTC owns and every plane before it has an owner. -/
theorem find_plane_by_index_at_first (dbg : Bool) (dev : dp_device) (ci plane_index : Nat)
    (c : dp_crtc) (j : Nat) (hn : dev.num_crtcs < 2 ^ 32) (hci : ci < dev.num_crtcs)
    (hc : dev.crtcs[ci]? = some (some c)) (hj : j < dev.num_planes)
    (hbefore : ∀ k, k < j → ∃ x, owner_id dev k = some x ∧ x ≠ c.id) :
    (dp_device_find_plane_by_index dbg dev ci plane_index).out =
      (dp_device_find_plane_by_index_loop dbg dev (some c) plane_index
        (dev.num_planes - j) j).out := by
  unfold dp_device_find_plane_by_index
  rw [if_neg (crtc_index_in_range _ _ hn hci)]
  simp only [out_bind, out_load_crtc, hc, Option.some_bind]
  rw [find_plane_by_index_loop_skip dbg dev c plane_index dev.num_planes 0 j (Nat.zero_le _)
    (by omega) (fun k _ hk => hbefore k hk)]
  simp

/-- Claim C5. On a device with the CRTC slot `crtc_index < num_crtcs` filled and
every one of the first `num_planes` slots holding a plane that has an owning
CRTC, if some plane is owned by `crtcs[crtc_index]` then
`dp_device_find_plane_by_index(dev, crtc_index, 0)` returns the plane at the
smallest position whose owner has the id of that CRTC. -/
theorem find_plane_by_index_first (dbg : Bool) (dev : dp_device) (ci : Nat) (c : dp_crtc)
    (hn : dev.num_crtcs < 2 ^ 32) (hp : dev.num_planes < 2 ^ 32)
    (hci : ci < dev.num_crtcs) (hc : dev.crtcs[ci]? = some (some c))
    (howned : ∀ k, k < dev.num_planes → ∃ x, owner_id dev k = some x)
    (hex : ∃ k, k < dev.num_planes ∧ owner_id dev k = some c.id) :
    ∃ j p, j < dev.num_planes ∧ dev.planes[j]? = some (some p) ∧
      owner_id dev j = some c.id ∧ (∀ k, k < j → owner_id dev k ≠ some c.id) ∧
      (dp_device_find_plane_by_index dbg dev ci 0).out = some (some p) := by
  classical
  have hj := Nat.find_spec hex
  have hmin : ∀ k, k < Nat.find hex → owner_id dev k ≠ some c.id := by
    intro k hk e
    exact Nat.find_min hex hk ⟨by omega, e⟩
  obtain ⟨p, hp'⟩ : ∃ p, dev.planes[Nat.find hex]? = some (some p) := by
    have h := hj.2
    unfold owner_id at h
    split at h
    · exact ⟨_, by assumption⟩
    · cases h
  refine ⟨Nat.find hex, p, hj.1, hp', hj.2, hmin, ?_⟩
  rw [find_plane_by_index_at_first dbg dev ci 0 c (Nat.find hex) hn hci hc hj.1 ?_]
  · have hlt := hj.1
    obtain ⟨r, hr⟩ : ∃ r, dev.num_planes - Nat.find hex = r + 1 :=
      ⟨dev.num_planes - Nat.find hex - 1, by omega⟩
    rw [hr]
    have hmod : (Nat.find hex + 0) % 2 ^ 32 = Nat.find hex :=
      Nat.mod_eq_of_lt (by omega)
    exact find_plane_by_index_loop_hit dbg dev c 0 r _ p hj.2 (by rw [hmod]; exact hj.1)
      (by rw [hmod]; exact hp')
  · intro k hk
    obtain ⟨x, hx⟩ := howned k (by omega)
    exact ⟨x, hx, fun e => hmin k hk (by rw [hx, e])⟩

/-! ## Runs of consecutive positions in a filtered list -/

theorem nth_filter_run {α : Type} (P : α → Bool) :
    ∀ (l : List α) (a n : Nat),
      (∀ k x, k < a → l[k]? = some x → P x = false) →
      (∀ k, a ≤ k → k ≤ a + n → ∃ x, l[k]? = some x ∧ P x = true) →
      (l.filter P)[n]? = l[a + n]? := by
  intro l
  induction l with
  | nil =>
    intro a n _ h
    obtain ⟨x, hx, _⟩ := h a (Nat.le_refl _) (by omega)
    simp at hx
  | cons y ys ih =>
    intro a n hb hr
    cases a with
    | zero =>
      obtain ⟨x, hx, hpx⟩ := hr 0 (Nat.le_refl _) (by omega)
      have hy : P y = true := by
        simp only [List.getElem?_cons_zero, Option.some.injEq] at hx
        rw [hx]; exact hpx
      rw [List.filter_cons_of_pos hy]
      cases n with
      | zero => simp
      | succ n =>
        have := ih 0 n (fun k x hk => by omega)
          (fun k h1 h2 => by
            obtain ⟨x, hx, hpx⟩ := hr (k + 1) (by omega) (by omega)
            exact ⟨x, by simpa using hx, hpx⟩)
        simp only [Nat.zero_add] at this ⊢
        simpa using this
    | succ a =>
      have hy : ¬ P y = true := by
        have := hb 0 y (by omega) (by simp)
        simp [this]
      rw [List.filter_cons_of_neg hy]
      have := ih a n (fun k x hk hx => hb (k + 1) x (by omega) (by simpa using hx))
        (fun k h1 h2 => by
          obtain ⟨x, hx, hpx⟩ := hr (k + 1) (by omega) (by omega)
          exact ⟨x, by simpa using hx, hpx⟩)
      rw [this]
      have e : a + 1 + n = (a + n) + 1 := by omega
      rw [e, List.getElem?_cons_succ]

theorem filter_length_run {α : Type} (P : α → Bool) :
    ∀ (l : List α) (a m : Nat),
      (∀ k x, l[k]? = some x → (P x = true ↔ a ≤ k ∧ k < a + m)) →
      a + m ≤ l.length → (l.filter P).length = m := by
  intro l
  induction l with
  | nil => intro a m _ h; simp at h; simp [h.2]
  | cons y ys ih =>
    intro a m h hle
    have hy := h 0 y (by simp)
    cases a with
    | zero =>
      cases m with
      | zero =>
        have hny : ¬ P y = true := fun e => by have := hy.mp e; omega
        rw [List.filter_cons_of_neg hny]
        exact ih 0 0 (fun k x hx => by
          have := h (k + 1) x (by simpa using hx)
          constructor
          · intro e; have := this.mp e; omega
          · intro e; omega) (by omega)
      | succ m =>
        have hpy : P y = true := hy.mpr (by omega)
        rw [List.filter_cons_of_pos hpy, List.length_cons]
        congr 1
        exact ih 0 m (fun k x hx => by
          have := h (k + 1) x (by simpa using hx)
          constructor
          · intro e; have := this.mp e; omega
          · intro e; exact this.mpr (by omega))
          (by simp only [List.length_cons] at hle; omega)
    | succ a =>
      have hny : ¬ P y = true := fun e => by have := hy.mp e; omega
      rw [List.filter_cons_of_neg hny]
      exact ih a m (fun k x hx => by
        have := h (k + 1) x (by simpa using hx)
        constructor
        · intro e; have := this.mp e; omega
        · intro e; exact this.mpr (by omega))
        (by simp only [List.length_cons] at hle; omega)

theorem filled_map_some {α : Type} :
    ∀ (xs : List (Option α)), (∀ k, k < xs.length → ∃ p, xs[k]? = some (some p)) →
      (xs.filterMap id).map some = xs := by
  intro xs
  induction xs with
  | nil => intro _; rfl
  | cons y ys ih =>
    intro h
    obtain ⟨p, hp⟩ := h 0 (by simp)
    simp only [List.getElem?_cons_zero, Option.some.injEq] at hp
    subst hp
    rw [List.filterMap_cons_some (by rfl : id (some p) = some p), List.map_cons,
      ih (fun k hk => by
        obtain ⟨q, hq⟩ := h (k + 1) (by simpa using hk)
        exact ⟨q, by simpa using hq⟩)]

/-- On a device whose first `num_planes` slots are filled, the list of its
planes has the plane of slot `k` at position `k`. -/
theorem filled_planes_get (dev : dp_device)
    (hfilled : ∀ k, k < dev.num_planes → ∃ p, dev.planes[k]? = some (some p)) :
    ((dev.planes.take dev.num_planes).filterMap id).length = dev.num_planes ∧
    ∀ k, k < dev.num_planes →
      dev.planes[k]? = (((dev.planes.take dev.num_planes).filterMap id)[k]?).map some := by
  have hlen : dev.num_planes ≤ dev.planes.length := by
    by_contra hc
    obtain ⟨p, hp⟩ := hfilled dev.planes.length (by omega)
    rw [List.getElem?_eq_none (Nat.le_refl _)] at hp
    cases hp
  have htl : (dev.planes.take dev.num_planes).length = dev.num_planes := by
    rw [List.length_take]; omega
  have hmap := filled_map_some (dev.planes.take dev.num_planes) (fun k hk => by
    rw [htl] at hk
    obtain ⟨p, hp⟩ := hfilled k hk
    exact ⟨p, by rw [List.getElem?_take_of_lt hk]; exact hp⟩)
  constructor
  · have := congrArg List.length hmap
    rw [List.length_map, htl] at this
    exact this
  · intro k hk
    rw [← List.getElem?_map, hmap, List.getElem?_take_of_lt hk]

/-! ## The `n`-th plane of a CRTC -/

/-- The contiguity policy where no absent owner is met: on a device with the
CRTC slot `crtc_index < num_crtcs` filled, the first `num_planes` plane slots
filled, every plane before the first one owned by `crtcs[crtc_index]` having
an owning CRTC, and the planes owned by `crtcs[crtc_index]` at the contiguous
positions `a, ..., a + m - 1`: for `n` below the number of planes that CRTC
owns, `dp_device_find_plane_by_index(dev, crtc_index, n)` returns the `n`-th
plane owned by that CRTC, in array order. -/
theorem find_plane_by_index_nth (dbg : Bool) (dev : dp_device) (ci : Nat) (c : dp_crtc)
    (a m n : Nat)
    (hn : dev.num_crtcs < 2 ^ 32) (hp : dev.num_planes < 2 ^ 32)
    (hci : ci < dev.num_crtcs) (hc : dev.crtcs[ci]? = some (some c))
    (hfilled : ∀ k, k < dev.num_planes → ∃ p, dev.planes[k]? = some (some p))
    (hcontig : ∀ k, k < dev.num_planes →
      (owner_id dev k = some c.id ↔ a ≤ k ∧ k < a + m))
    (ham : a + m ≤ dev.num_planes)
    (hown : ∀ k, k < a → ∃ x, owner_id dev k = some x)
    (hlt : n < (owned_planes dev c.id).length) :
    ∃ p, (owned_planes dev c.id)[n]? = some p ∧
      (dp_device_find_plane_by_index dbg dev ci n).out = some (some p) := by
  obtain ⟨hlen, hget⟩ := filled_planes_get dev hfilled
  -- ownership, read on the list of planes
  have hP : ∀ k x, ((dev.planes.take dev.num_planes).filterMap id)[k]? = some x →
      (decide (x.crtc.map (fun c => c.id) = some c.id) = true ↔ a ≤ k ∧ k < a + m) := by
    intro k x hx
    have hk : k < dev.num_planes := by
      by_contra hcon
      rw [List.getElem?_eq_none (by omega)] at hx
      cases hx
    have hslot : dev.planes[k]? = some (some x) := by rw [hget k hk, hx]; rfl
    have ho : owner_id dev k = x.crtc.map (fun c => c.id) := by
      unfold owner_id; rw [hslot]
    rw [decide_eq_true_iff, ← ho]
    exact hcontig k hk
  have hm : (owned_planes dev c.id).length = m :=
    filter_length_run _ _ a m hP (by omega)
  rw [hm] at hlt
  have hslot : ∀ k, k < dev.num_planes → ∃ x, dev.planes[k]? = some (some x) ∧
      ((dev.planes.take dev.num_planes).filterMap id)[k]? = some x ∧
      owner_id dev k = x.crtc.map (fun c => c.id) := by
    intro k hk
    obtain ⟨x, hx⟩ := hfilled k hk
    have h2 : ((dev.planes.take dev.num_planes).filterMap id)[k]? = some x := by
      have := hget k hk
      rw [hx] at this
      cases h : ((dev.planes.take dev.num_planes).filterMap id)[k]? with
      | none => rw [h] at this; cases this
      | some y => rw [h] at this; simp at this; rw [this]
    exact ⟨x, hx, h2, by unfold owner_id; rw [hx]⟩
  obtain ⟨p, hp1, hp2, -⟩ := hslot (a + n) (by omega)
  have hnth : (owned_planes dev c.id)[n]? = some p := by
    unfold owned_planes
    rw [nth_filter_run _ _ a n ?_ ?_, hp2]
    · intro k x hk hx
      have := hP k x hx
      by_contra hcon
      have := this.mp (by simpa using hcon)
      omega
    · intro k h1 h2
      obtain ⟨x, -, hx2, -⟩ := hslot k (by omega)
      exact ⟨x, hx2, (hP k x hx2).mpr ⟨h1, by omega⟩⟩
  refine ⟨p, hnth, ?_⟩
  have hbefore : ∀ k, k < a → ∃ x, owner_id dev k = some x ∧ x ≠ c.id := by
    intro k hk
    obtain ⟨x, hx⟩ := hown k hk
    refine ⟨x, hx, fun e => ?_⟩
    have := (hcontig k (by omega)).mp (by rw [hx, e])
    omega
  rw [find_plane_by_index_at_first dbg dev ci n c a hn hci hc (by omega) hbefore]
  obtain ⟨r, hr⟩ : ∃ r, dev.num_planes - a = r + 1 := ⟨dev.num_planes - a - 1, by omega⟩
  rw [hr]
  have hmod : (a + n) % 2 ^ 32 = a + n := Nat.mod_eq_of_lt (by omega)
  exact find_plane_by_index_loop_hit dbg dev c n r a p
    ((hcontig a (by omega)).mpr ⟨Nat.le_refl _, by omega⟩)
    (by rw [hmod]; omega) (by rw [hmod]; exact hp1)

/-! ## The variant that takes a screen -/

theorem for_screen_loop_eq (dbg : Bool) (dev : dp_device) (crtc : Option dp_crtc)
    (plane_index : Nat) :
    ∀ (n i : Nat),
      dp_device_find_plane_by_index_for_screen_loop dbg dev crtc plane_index n i =
        dp_device_find_plane_by_index_loop dbg dev crtc plane_index n i := by
  intro n
  induction n with
  | zero => intro i; rfl
  | succ n ih =>
    intro i
    simp only [dp_device_find_plane_by_index_for_screen_loop,
      dp_device_find_plane_by_index_loop, ih]

/-- Claim C10. On a device whose first `num_screens` screen slots are filled,
for every `connector_index < num_screens`, every `crtc_index` and every
`plane_index`, `dp_device_find_plane_by_index_for_screen` has the outcome of
`dp_device_find_plane_by_index` on the same `crtc_index` and `plane_index`. -/
theorem find_plane_for_screen_same (dbg : Bool) (dev : dp_device)
    (connector_index crtc_index plane_index : Nat)
    (hscreens : ∀ k, k < dev.num_screens → ∃ s, dev.screens[k]? = some (some s))
    (hx : connector_index < dev.num_screens) :
    (dp_device_find_plane_by_index_for_screen dbg dev connector_index crtc_index
        plane_index).out =
      (dp_device_find_plane_by_index dbg dev crtc_index plane_index).out := by
  classical
  obtain ⟨s, hs⟩ := hscreens connector_index hx
  have hex : ∃ k, k < dev.num_screens ∧ ∃ t, dev.screens[k]? = some (some t) ∧ t.id = s.id :=
    ⟨connector_index, hx, s, hs, rfl⟩
  obtain ⟨hj, t, ht, htid⟩ := Nat.find_spec hex
  have hfound : (get_connector_by_id dbg dev s.id).out = some (some t) := by
    refine get_connector_by_id_loop_hit dbg dev s.id dev.num_screens 0 (Nat.find hex) t
      (Nat.zero_le _) (by omega) ht htid ?_
    intro k _ hk
    obtain ⟨u, hu⟩ := hscreens k (by omega)
    refine ⟨some u, hu, fun _ => by simp, ?_⟩
    intro u' hu' e
    cases hu'
    exact Nat.find_min hex hk ⟨by omega, u, hu, e⟩
  unfold dp_device_find_plane_by_index_for_screen dp_device_find_plane_by_index
  by_cases hg : crtc_index > (dev.num_crtcs + 2 ^ 32 - 1) % 2 ^ 32
  · rw [if_pos hg, if_pos hg]
  · rw [if_neg hg, if_neg hg]
    simp only [out_bind, out_load_screen, hs, out_deref, Option.some_bind, hfound,
      out_load_crtc, for_screen_loop_eq]

/-! ## Lookup of a CRTC index by id -/

/-- A slot the scan of `get_crtc_index` steps over: it lies inside the array
and is empty or holds a CRTC with another id. -/
theorem get_crtc_index_loop_miss (dev : dp_device) (id : Nat) :
    ∀ (n i : Nat),
      (∀ k, i ≤ k → k < i + n →
        ∃ o, dev.crtcs[k]? = some o ∧ ∀ c, o = some c → c.id ≠ id) →
      (get_crtc_index_loop dev id n i).out = some (-1) := by
  intro n
  induction n with
  | zero => intro i _; rfl
  | succ n ih =>
    intro i h
    obtain ⟨o, ho, hid⟩ := h i (Nat.le_refl _) (by omega)
    have hrec := ih (i + 1) (fun k h1 h2 => h k (by omega) (by omega))
    cases o with
    | none => simp [get_crtc_index_loop, ho, hrec]
    | some c =>
      have := hid c rfl
      simp [get_crtc_index_loop, ho, hrec, this]

theorem get_crtc_index_loop_hit (dev : dp_device) (id : Nat) :
    ∀ (n i j : Nat) (c : dp_crtc), i ≤ j → j < i + n →
      dev.crtcs[j]? = some (some c) → c.id = id →
      (∀ k, i ≤ k → k < j →
        ∃ o, dev.crtcs[k]? = some o ∧ ∀ c', o = some c' → c'.id ≠ id) →
      (get_crtc_index_loop dev id n i).out = some (j : Int) := by
  intro n
  induction n with
  | zero => intro i j c h1 h2; omega
  | succ n ih =>
    intro i j c h1 h2 hc hid hbefore
    by_cases e : i = j
    · subst e
      simp [get_crtc_index_loop, hc, hid]
    · obtain ⟨o, ho, hne⟩ := hbefore i (Nat.le_refl _) (by omega)
      have hrec := ih (i + 1) j c (by omega) (by omega) hc hid
        (fun k h1 h2 => hbefore k (by omega) h2)
      cases o with
      | none => simp [get_crtc_index_loop, ho, hrec]
      | some c' =>
        have := hne c' rfl
        simp [get_crtc_index_loop, ho, hrec, this]

/-- Claim C16. On a CRTC array whose first `num_crtcs` slots lie inside the
allocation (filled or empty), `get_crtc_index(dev, id)` returns the smallest
index below `num_crtcs` whose slot is filled with a CRTC of that id; it
returns -1 exactly when no filled slot below `num_crtcs` has that id; and it
always returns (an empty slot is stepped over, never dereferenced). -/
theorem get_crtc_index_spec (dev : dp_device) (id : Nat)
    (hin : dev.num_crtcs ≤ dev.crtcs.length) :
    (∀ i c, i < dev.num_crtcs → dev.crtcs[i]? = some (some c) → c.id = id →
      (∀ k c', k < i → dev.crtcs[k]? = some (some c') → c'.id ≠ id) →
      (get_crtc_index dev id).out = some (i : Int)) ∧
    ((get_crtc_index dev id).out = some (-1) ↔
      ∀ k c, k < dev.num_crtcs → dev.crtcs[k]? = some (some c) → c.id ≠ id) ∧
    (get_crtc_index dev id).out ≠ none := by
  classical
  have hslot : ∀ k, k < dev.num_crtcs → ∃ o, dev.crtcs[k]? = some o := fun k hk =>
    ⟨dev.crtcs[k], List.getElem?_eq_getElem (by omega)⟩
  have hhit : ∀ i c, i < dev.num_crtcs → dev.crtcs[i]? = some (some c) → c.id = id →
      (∀ k c', k < i → dev.crtcs[k]? = some (some c') → c'.id ≠ id) →
      (get_crtc_index dev id).out = some (i : Int) := by
    intro i c hi hc hid hmin
    refine get_crtc_index_loop_hit dev id dev.num_crtcs 0 i c (Nat.zero_le _) (by omega)
      hc hid ?_
    intro k _ hk
    obtain ⟨o, ho⟩ := hslot k (by omega)
    exact ⟨o, ho, fun c' e => hmin k c' hk (by rw [ho, e])⟩
  have hmiss : (∀ k c, k < dev.num_crtcs → dev.crtcs[k]? = some (some c) → c.id ≠ id) →
      (get_crtc_index dev id).out = some (-1) := by
    intro h
    refine get_crtc_index_loop_miss dev id dev.num_crtcs 0 ?_
    intro k _ hk
    obtain ⟨o, ho⟩ := hslot k (by omega)
    exact ⟨o, ho, fun c e => h k c (by omega) (by rw [ho, e])⟩
  have hfirst : (∃ k, k < dev.num_crtcs ∧ ∃ c, dev.crtcs[k]? = some (some c) ∧ c.id = id) →
      ∃ j : Nat, (get_crtc_index dev id).out = some (j : Int) := by
    intro hex
    obtain ⟨hj, c, hc, hid⟩ := Nat.find_spec hex
    refine ⟨Nat.find hex, hhit _ c hj hc hid ?_⟩
    intro k c' hk hc' e
    exact Nat.find_min hex hk ⟨by omega, c', hc', e⟩
  refine ⟨hhit, ⟨?_, hmiss⟩, ?_⟩
  · intro hout k c hk hc e
    obtain ⟨j, hj⟩ := hfirst ⟨k, hk, c, hc, e⟩
    rw [hj] at hout
    have := Option.some.inj hout
    omega
  · by_cases hex : ∃ k, k < dev.num_crtcs ∧ ∃ c, dev.crtcs[k]? = some (some c) ∧ c.id = id
    · obtain ⟨j, hj⟩ := hfirst hex
      rw [hj]; simp
    · rw [hmiss (fun k c hk hc e => hex ⟨k, hk, c, hc, e⟩)]; simp

/-! ## Lookup of a screen by name -/

theorem get_connector_by_name_loop_miss (dev : dp_device) (name : String) :
    ∀ (n i : Nat),
      (∀ k, i ≤ k → k < i + n →
        ∃ t text, dev.screens[k]? = some (some t) ∧ t.name = some text ∧ text ≠ name) →
      (get_connector_by_name_loop dev name n i).out = some none := by
  intro n
  induction n with
  | zero => intro i _; rfl
  | succ n ih =>
    intro i h
    obtain ⟨t, text, ht, htn, hne⟩ := h i (Nat.le_refl _) (by omega)
    have hrec := ih (i + 1) (fun k h1 h2 => h k (by omega) (by omega))
    simp [get_connector_by_name_loop, ht, htn, hne, hrec]

theorem get_connector_by_name_loop_hit (dev : dp_device) (name : String) :
    ∀ (n i j : Nat) (s : dp_screen), i ≤ j → j < i + n →
      dev.screens[j]? = some (some s) → s.name = some name →
      (∀ k, i ≤ k → k < j →
        ∃ t text, dev.screens[k]? = some (some t) ∧ t.name = some text ∧ text ≠ name) →
      (get_connector_by_name_loop dev name n i).out = some (some s) := by
  intro n
  induction n with
  | zero => intro i j s h1 h2; omega
  | succ n ih =>
    intro i j s h1 h2 hs hname hbefore
    by_cases e : i = j
    · subst e
      simp [get_connector_by_name_loop, hs, hname]
    · obtain ⟨t, text, ht, htn, hne⟩ := hbefore i (Nat.le_refl _) (by omega)
      have hrec := ih (i + 1) j s (by omega) (by omega) hs hname
        (fun k h1 h2 => hbefore k (by omega) h2)
      simp [get_connector_by_name_loop, ht, htn, hne, hrec]

/-- Every screen of a list that follows the naming rule has a name. -/
theorem named_has_name (L : List dp_screen) (h : named L) (k : Nat) (s : dp_screen)
    (hs : L[k]? = some s) : ∃ text, s.name = some text := by
  obtain ⟨label, -, hn⟩ := h k s hs
  exact ⟨_, hn⟩

/-- Claim C18. On the device `dp_device_probe_screens` builds from the freshly
allocated one (any connector list, any failures; screen types within the
label table, fewer than `2 ^ 32` connectors), `get_connector_by_name` returns
each stored screen for its own name, and `NULL` for a name no stored screen
has. -/
theorem get_connector_by_name_spec (res : Option drmModeRes) (calloc_ok : Bool)
    (dp_screen_create : Nat → Nat → Option dp_screen) (malloc_ok : Nat → Bool) (fd : Int)
    (hcount : ∀ r, res = some r → r.connectors.length < 2 ^ 32)
    (htype : ∀ r, res = some r → ∀ i c s, r.connectors[i]? = some c →
      dp_screen_create i c = some s → s.type < connector_names.length) :
    ∃ dev, dp_device_probe_screens res calloc_ok dp_screen_create malloc_ok
        (calloc_device fd) = some dev ∧
      (∀ i s text, i < dev.num_screens → dev.screens[i]? = some (some s) →
        s.name = some text → (get_connector_by_name dev text).out = some (some s)) ∧
      (∀ text, (∀ i s, i < dev.num_screens → dev.screens[i]? = some (some s) →
          s.name ≠ some text) →
        (get_connector_by_name dev text).out = some none) := by
  obtain ⟨L, pad, h1, h2, -, -⟩ :=
    probe_screens_result res calloc_ok dp_screen_create malloc_ok fd hcount htype
  have hslot : ∀ k, k < L.length →
      ∃ t, (L.map some ++ pad)[k]? = some (some t) ∧ L[k]? = some t := by
    intro k hk
    refine ⟨L[k], ?_, List.getElem?_eq_getElem hk⟩
    rw [List.getElem?_append_left (by simpa using hk), List.getElem?_map,
      List.getElem?_eq_getElem hk]
    rfl
  refine ⟨_, h1, ?_, ?_⟩
  · intro i s text hi hs hname
    have hi' : i < L.length := hi
    have hs' : L[i]? = some s := by
      obtain ⟨t, ht1, ht2⟩ := hslot i hi'
      have h3 : (L.map some ++ pad)[i]? = some (some s) := hs
      rw [ht1] at h3
      rw [ht2, Option.some.inj (Option.some.inj h3)]
    refine get_connector_by_name_loop_hit _ text L.length 0 i s (Nat.zero_le _) (by omega)
      hs hname ?_
    intro k _ hk
    obtain ⟨t, ht1, ht2⟩ := hslot k (by omega)
    obtain ⟨tn, htn⟩ := named_has_name L h2 k t ht2
    refine ⟨t, tn, ht1, htn, ?_⟩
    intro e
    refine named_distinct L h2 k i t s hk ht2 hs' ?_
    rw [htn, hname, e]
  · intro text hno
    refine get_connector_by_name_loop_miss _ text L.length 0 ?_
    intro k _ hk
    obtain ⟨t, ht1, ht2⟩ := hslot k (by omega)
    obtain ⟨tn, htn⟩ := named_has_name L h2 k t ht2
    refine ⟨t, tn, ht1, htn, ?_⟩
    intro e
    exact hno k t (by show k < L.length; omega) ht1 (by rw [htn, e])

/-! ## Probing that stores at the loop index -/

theorem probed_slots_length {α : Type} (create : Nat → Nat → Option α) :
    ∀ (rest : List Nat) (i : Nat), (probed_slots create rest i).length = rest.length := by
  intro rest
  induction rest with
  | nil => intro i; rfl
  | cons c rest ih => intro i; simp [probed_slots, ih]

theorem probed_slots_get {α : Type} (create : Nat → Nat → Option α) :
    ∀ (rest : List Nat) (i k c : Nat), rest[k]? = some c →
      (probed_slots create rest i)[k]? = some (create (i + k) c) := by
  intro rest
  induction rest with
  | nil => intro i k c h; simp at h
  | cons d rest ih =>
    intro i k c h
    cases k with
    | zero =>
      simp only [List.getElem?_cons_zero, Option.some.injEq] at h
      simp [probed_slots, h]
    | succ k =>
      simp only [List.getElem?_cons_succ] at h
      have := ih (i + 1) k c h
      simp only [probed_slots, List.getElem?_cons_succ, this]
      congr 2
      omega

theorem probe_crtcs_loop_spec (dp_crtc_create : Nat → Nat → Option dp_crtc) :
    ∀ (rest : List Nat) (i : Nat) (pre : List (Option dp_crtc)) (d : dp_device),
      d.crtcs = pre ++ List.replicate rest.length none → pre.length = i →
      dp_device_probe_crtcs_loop dp_crtc_create rest i d =
        some { d with
          crtcs := pre ++ probed_slots dp_crtc_create rest i
          num_crtcs := d.num_crtcs +
            (probed_slots dp_crtc_create rest i).countP Option.isSome } := by
  intro rest
  induction rest with
  | nil =>
    intro i pre d hd _
    simp only [List.length_nil, List.replicate_zero, List.append_nil] at hd
    simp [dp_device_probe_crtcs_loop, probed_slots, ← hd]
  | cons c rest ih =>
    intro i pre d hd hi
    simp only [List.length_cons, List.replicate_succ] at hd
    cases hc : dp_crtc_create i c with
    | none =>
      have := ih (i + 1) (pre ++ [none]) d (by simp [hd]) (by simp [hi])
      simp only [dp_device_probe_crtcs_loop, hc, this, probed_slots]
      simp
    | some crtc =>
      have hroom : i < d.crtcs.length := by
        rw [hd]; simp; omega
      have hset : d.crtcs.set i (some crtc) =
          (pre ++ [some crtc]) ++ List.replicate rest.length none := by
        rw [hd, ← hi, set_append_cons]
        simp
      have := ih (i + 1) (pre ++ [some crtc])
        { d with crtcs := d.crtcs.set i (some crtc), num_crtcs := d.num_crtcs + 1 }
        hset (by simp [hi])
      simp only [dp_device_probe_crtcs_loop, hc, hroom, if_true, this, probed_slots]
      simp [List.countP_cons]
      omega

theorem probe_planes_loop_spec (dp_plane_create : Nat → Nat → Option dp_plane) :
    ∀ (rest : List Nat) (i : Nat) (pre : List (Option dp_plane)) (d : dp_device),
      d.planes = pre ++ List.replicate rest.length none → pre.length = i →
      dp_device_probe_planes_loop dp_plane_create rest i d =
        some { d with
          planes := pre ++ probed_slots dp_plane_create rest i
          num_planes := d.num_planes +
            (probed_slots dp_plane_create rest i).countP Option.isSome } := by
  intro rest
  induction rest with
  | nil =>
    intro i pre d hd _
    simp only [List.length_nil, List.replicate_zero, List.append_nil] at hd
    simp [dp_device_probe_planes_loop, probed_slots, ← hd]
  | cons c rest ih =>
    intro i pre d hd hi
    simp only [List.length_cons, List.replicate_succ] at hd
    cases hc : dp_plane_create i c with
    | none =>
      have := ih (i + 1) (pre ++ [none]) d (by simp [hd]) (by simp [hi])
      simp only [dp_device_probe_planes_loop, hc, this, probed_slots]
      simp
    | some plane =>
      have hroom : i < d.planes.length := by
        rw [hd]; simp; omega
      have hset : d.planes.set i (some plane) =
          (pre ++ [some plane]) ++ List.replicate rest.length none := by
        rw [hd, ← hi, set_append_cons]
        simp
      have := ih (i + 1) (pre ++ [some plane])
        { d with planes := d.planes.set i (some plane), num_planes := d.num_planes + 1 }
        hset (by simp [hi])
      simp only [dp_device_probe_planes_loop, hc, hroom, if_true, this, probed_slots]
      simp [List.countP_cons]
      omega

/-- What CRTC probing does to a device: only the CRTC array and its count
change. -/
theorem probe_crtcs_result (res : Option drmModeRes) (calloc_ok : Bool)
    (dp_crtc_create : Nat → Nat → Option dp_crtc) (d : dp_device) :
    dp_device_probe_crtcs res calloc_ok dp_crtc_create d =
      some { d with
        crtcs := match res with
          | none => d.crtcs
          | some r => if calloc_ok then probed_slots dp_crtc_create r.crtcs 0 else []
        num_crtcs := d.num_crtcs + match res with
          | none => 0
          | some r =>
            if calloc_ok then (probed_slots dp_crtc_create r.crtcs 0).countP Option.isSome
            else 0 } := by
  cases res with
  | none => rfl
  | some r =>
    cases calloc_ok with
    | false => rfl
    | true =>
      simp only [dp_device_probe_crtcs, if_true]
      rw [probe_crtcs_loop_spec dp_crtc_create r.crtcs 0 [] _ (by simp) rfl]
      simp

/-- What plane probing does to a device: only the plane array and its count
change. -/
theorem probe_planes_result (res : Option drmModePlaneRes) (calloc_ok : Bool)
    (dp_plane_create : Nat → Nat → Option dp_plane) (d : dp_device) :
    dp_device_probe_planes res calloc_ok dp_plane_create d =
      some { d with
        planes := match res with
          | none => d.planes
          | some r => if calloc_ok then probed_slots dp_plane_create r.planes 0 else []
        num_planes := d.num_planes + match res with
          | none => 0
          | some r =>
            if calloc_ok then (probed_slots dp_plane_create r.planes 0).countP Option.isSome
            else 0 } := by
  cases res with
  | none => rfl
  | some r =>
    cases calloc_ok with
    | false => rfl
    | true =>
      simp only [dp_device_probe_planes, if_true]
      rw [probe_planes_loop_spec dp_plane_create r.planes 0 [] _ (by simp) rfl]
      simp

/-- Claim C14 (amended). After `dp_device_probe_crtcs` on the freshly allocated
device, for every platform CRTC list of `n` identities and every pattern of
failed materialisations: the array has `n` slots, slot `i` holds what the
materialisation of the `i`-th identity returned (it is empty when that one
failed), and `num_crtcs` is the number of slots filled. -/
theorem probe_crtcs_counts_filled (r : drmModeRes)
    (dp_crtc_create : Nat → Nat → Option dp_crtc) (fd : Int) :
    ∃ dev, dp_device_probe_crtcs (some r) true dp_crtc_create (calloc_device fd) = some dev ∧
      dev.crtcs.length = r.crtcs.length ∧
      (∀ i c, r.crtcs[i]? = some c → dev.crtcs[i]? = some (dp_crtc_create i c)) ∧
      dev.num_crtcs = dev.crtcs.countP Option.isSome := by
  refine ⟨_, probe_crtcs_result (some r) true dp_crtc_create (calloc_device fd), ?_, ?_, ?_⟩
  · simp [probed_slots_length]
  · intro i c hc
    have := probed_slots_get dp_crtc_create r.crtcs 0 i c hc
    simpa using this
  · simp [calloc_device]

/-- Claim C14 (counterexample). On the list of CRTCs 10 and 11 where the first
materialisation fails, two slots are visited and `num_crtcs` is 1. -/
theorem probe_crtcs_count_not_visited :
    two_crtcs.crtcs.length = 2 ∧
    ∃ dev, dp_device_probe_crtcs (some two_crtcs) true first_crtc_fails (calloc_device 3) =
        some dev ∧ dev.crtcs = [none, some ⟨11⟩] ∧ dev.num_crtcs = 1 ∧
      dev.num_crtcs ≠ two_crtcs.crtcs.length :=
  ⟨by decide, gap_device, by decide, by decide, by decide, by decide⟩

/-- Claim C13. After `dp_device_probe_screens` on the freshly allocated device
(screen types within the label table, fewer than `2 ^ 32` connectors), for
every outcome of the resource query, the array allocation, the
materialisations and the name allocations: the first `num_screens` slots are
all filled; when the list was obtained and the array allocated they hold, in
list order, exactly the screens of the connectors for which materialisation
and name allocation both succeeded, and otherwise `num_screens` is 0;
`num_screens` is at most the number of connectors. -/
theorem probe_screens_stored (res : Option drmModeRes) (calloc_ok : Bool)
    (dp_screen_create : Nat → Nat → Option dp_screen) (malloc_ok : Nat → Bool) (fd : Int)
    (hcount : ∀ r, res = some r → r.connectors.length < 2 ^ 32)
    (htype : ∀ r, res = some r → ∀ i c s, r.connectors[i]? = some c →
      dp_screen_create i c = some s → s.type < connector_names.length) :
    ∃ (dev : dp_device) (L : List dp_screen),
      dp_device_probe_screens res calloc_ok dp_screen_create malloc_ok
        (calloc_device fd) = some dev ∧
      dev.screens.take dev.num_screens = L.map some ∧ dev.num_screens = L.length ∧
      (∀ r, res = some r → dev.num_screens ≤ r.connectors.length ∧
        (calloc_ok = true →
          L.map (fun s => (s.id, s.type)) =
            (kept_screens dp_screen_create malloc_ok r.connectors 0).map
              (fun s => (s.id, s.type)) ∧
          dev.num_screens = (kept_screens dp_screen_create malloc_ok r.connectors 0).length)) ∧
      ((res = none ∨ calloc_ok = false) → dev.num_screens = 0) := by
  obtain ⟨L, pad, h1, -, h3, h4⟩ :=
    probe_screens_result res calloc_ok dp_screen_create malloc_ok fd hcount htype
  refine ⟨_, L, h1, ?_, rfl, ?_, ?_⟩
  · show (L.map some ++ pad).take L.length = L.map some
    rw [List.take_append_of_le_length (by simp)]
    simp [List.take_of_length_le]
  · intro r hr
    obtain ⟨hle, hk⟩ := h3 r hr
    refine ⟨hle, fun hc => ⟨(hk hc).2, ?_⟩⟩
    have := congrArg List.length (hk hc).2
    simpa using this
  · intro h
    show L.length = 0
    rw [(h4 h).1]
    rfl

/-- One iteration of the screen probing loop that keeps its screen: the
counter read for the name, and the only one incremented, is the one at the
index `screen.type`. -/
theorem probe_screens_loop_step (dp_screen_create : Nat → Nat → Option dp_screen)
    (malloc_ok : Nat → Bool) (c : Nat) (rest : List Nat) (i : Nat) (counts : List Nat)
    (device : dp_device) (screen : dp_screen) (label : String) (count : Nat)
    (hc : dp_screen_create i c = some screen)
    (hl : connector_names[screen.type]? = some label)
    (hn : counts[screen.type]? = some count) (hm : malloc_ok i = true)
    (hroom : device.num_screens < device.screens.length) :
    dp_device_probe_screens_loop dp_screen_create malloc_ok (c :: rest) i counts device =
      dp_device_probe_screens_loop dp_screen_create malloc_ok rest (i + 1)
        (counts.set screen.type ((count + 1) % 2 ^ 32))
        { device with
          screens := device.screens.set device.num_screens
            (some { screen with name := some (format_name label count) })
          num_screens := device.num_screens + 1 } := by
  simp only [dp_device_probe_screens_loop, hc, hl, hn, hm, if_true, hroom, snprintf_full]

/-- Claim C19 (amended). Screen probing keeps one counter per entry of the
label table, 17 in all, every one initialised to zero and indexed by screen
type: the array `counts` it hands to its loop is `initial_counts`, seventeen
zeros, as long as `connector_names`; and an iteration that keeps its screen
names it from the counter at index `screen.type` and increments that counter
only. -/
theorem probe_screens_counters :
    connector_names.length = 17 ∧ initial_counts.length = connector_names.length ∧
    initial_counts = List.replicate 17 0 ∧
    (∀ (r : drmModeRes) (dp_screen_create : Nat → Nat → Option dp_screen)
      (malloc_ok : Nat → Bool) (device : dp_device),
      dp_device_probe_screens (some r) true dp_screen_create malloc_ok device =
        dp_device_probe_screens_loop dp_screen_create malloc_ok r.connectors 0 initial_counts
          { device with screens := List.replicate r.connectors.length none }) ∧
    (∀ (dp_screen_create : Nat → Nat → Option dp_screen) (malloc_ok : Nat → Bool)
      (c : Nat) (rest : List Nat) (i : Nat) (counts : List Nat) (device : dp_device)
      (screen : dp_screen) (label : String) (count : Nat),
      dp_screen_create i c = some screen → connector_names[screen.type]? = some label →
      counts[screen.type]? = some count → malloc_ok i = true →
      device.num_screens < device.screens.length →
      dp_device_probe_screens_loop dp_screen_create malloc_ok (c :: rest) i counts device =
        dp_device_probe_screens_loop dp_screen_create malloc_ok rest (i + 1)
          (counts.set screen.type ((count + 1) % 2 ^ 32))
          { device with
            screens := device.screens.set device.num_screens
              (some { screen with name := some (format_name label count) })
            num_screens := device.num_screens + 1 }) :=
  ⟨by decide, by decide, by decide, fun _ _ _ _ => rfl,
    fun create malloc_ok c rest i counts device screen label count hc hl hn hm hroom =>
      probe_screens_loop_step create malloc_ok c rest i counts device screen label count
        hc hl hn hm hroom⟩

/-! ## Open and close -/

/-- Claim C12. For every handle and every outcome of the platform queries,
allocations and materialisations (screen types within the label table, fewer
than `2 ^ 32` connectors): `dp_device_open` returns `NULL` when the device
allocation fails and otherwise a device holding the handle; a failed
resource-list query leaves its collection empty with count 0; and each
collection of the returned device is the one its own sub-probe builds on the
freshly allocated device, whatever the other sub-probes met. -/
theorem dp_device_open_spec (fd : Int) (P : Platform)
    (hcount : ∀ r, P.connector_res = some r → r.connectors.length < 2 ^ 32)
    (htype : ∀ r, P.connector_res = some r → ∀ i c s, r.connectors[i]? = some c →
      P.dp_screen_create i c = some s → s.type < connector_names.length) :
    dp_device_open false fd P = some none ∧
    ∃ dev, dp_device_open true fd P = some (some dev) ∧ dev.fd = fd ∧
      (P.connector_res = none → dev.screens = [] ∧ dev.num_screens = 0) ∧
      (P.crtc_res = none → dev.crtcs = [] ∧ dev.num_crtcs = 0) ∧
      (P.plane_res = none → dev.planes = [] ∧ dev.num_planes = 0) ∧
      (∀ d, dp_device_probe_screens P.connector_res P.screens_calloc_ok P.dp_screen_create
          P.malloc_ok (calloc_device fd) = some d →
        dev.screens = d.screens ∧ dev.num_screens = d.num_screens) ∧
      (∀ d, dp_device_probe_crtcs P.crtc_res P.crtcs_calloc_ok P.dp_crtc_create
          (calloc_device fd) = some d →
        dev.crtcs = d.crtcs ∧ dev.num_crtcs = d.num_crtcs) ∧
      (∀ d, dp_device_probe_planes P.plane_res P.planes_calloc_ok P.dp_plane_create
          (calloc_device fd) = some d →
        dev.planes = d.planes ∧ dev.num_planes = d.num_planes) := by
  obtain ⟨L, pad, h1, -, -, h4⟩ := probe_screens_result P.connector_res P.screens_calloc_ok
    P.dp_screen_create P.malloc_ok fd hcount htype
  refine ⟨rfl, ?_⟩
  simp only [dp_device_open, if_true, dp_device_probe, h1, Option.some_bind,
    probe_crtcs_result, probe_planes_result, Option.map_some']
  refine ⟨_, rfl, rfl, ?_, ?_, ?_, ?_, ?_, ?_⟩
  · intro h
    obtain ⟨e1, e2⟩ := h4 (Or.inl h)
    subst e1; subst e2
    exact ⟨rfl, rfl⟩
  · intro h
    rw [h]
    exact ⟨rfl, rfl⟩
  · intro h
    rw [h]
    exact ⟨rfl, rfl⟩
  · intro d hd
    cases hd
    exact ⟨rfl, rfl⟩
  · intro d hd
    cases hd
    exact ⟨rfl, rfl⟩
  · intro d hd
    cases hd
    exact ⟨rfl, rfl⟩

theorem slots_read_eq {α : Type} (array : List (Option α)) :
    ∀ (n i : Nat), i + n ≤ array.length →
      slots_read array n i = some ((array.drop i).take n) := by
  intro n
  induction n with
  | zero => intro i _; simp [slots_read]
  | succ n ih =>
    intro i h
    have hi : i < array.length := by omega
    rw [slots_read, List.getElem?_eq_getElem hi, ih (i + 1) (by omega)]
    conv_rhs => rw [List.drop_eq_getElem_cons hi, List.take_succ_cons]
    rfl

/-- The calls of `dp_device_close` on a device whose counts do not exceed its
arrays: the destroy operation on each of the first `num_planes` plane slots,
then on each of the first `num_crtcs` CRTC slots, then on each of the first
`num_screens` screen slots, filled or not, and on no slot past the counts. -/
theorem dp_device_close_calls (d : dp_device) (hp : d.num_planes ≤ d.planes.length)
    (hc : d.num_crtcs ≤ d.crtcs.length) (hs : d.num_screens ≤ d.screens.length) :
    dp_device_close d = some (
      (d.planes.take d.num_planes).map Release.dp_plane_free ++ [Release.free_planes] ++
      (d.crtcs.take d.num_crtcs).map Release.dp_crtc_free ++ [Release.free_crtcs] ++
      (d.screens.take d.num_screens).map Release.dp_screen_free ++ [Release.free_screens] ++
      (if d.fd ≥ 0 then [Release.close d.fd] else []) ++ [Release.free_device]) := by
  unfold dp_device_close
  rw [slots_read_eq _ _ 0 (by omega), slots_read_eq _ _ 0 (by omega),
    slots_read_eq _ _ 0 (by omega)]
  simp

/-! ## Concrete runs -/

/-- The naming of the screens of `vga_vga_hdmi`, from the general statement:
the names are `VGA-0`, `VGA-1`, `HDMI-A-0`. -/
theorem probe_screens_names_witness :
    (∀ r, some vga_vga_hdmi = some r → r.connectors.length < 2 ^ 32) ∧
    (∀ r, some vga_vga_hdmi = some r → ∀ i c s, r.connectors[i]? = some c →
      vga_vga_hdmi_create i c = some s → s.type < connector_names.length) ∧
    dp_device_probe_screens (some vga_vga_hdmi) true vga_vga_hdmi_create (fun _ => true)
      (calloc_device 3) = some vga_vga_hdmi_device ∧
    ∃ dev, dp_device_probe_screens (some vga_vga_hdmi) true vga_vga_hdmi_create
        (fun _ => true) (calloc_device 3) = some dev ∧
      (∀ i, i < dev.num_screens → ∃ s label, dev.screens[i]? = some (some s) ∧
        connector_names[s.type]? = some label ∧
        s.name = some (label ++ "-" ++ toString (same_type_before dev i s.type))) ∧
      (∀ i j s t, i < dev.num_screens → j < dev.num_screens →
        dev.screens[i]? = some (some s) → dev.screens[j]? = some (some t) →
        i ≠ j → s.name ≠ t.name) := by
  have h1 : ∀ r, some vga_vga_hdmi = some r → r.connectors.length < 2 ^ 32 := by
    intro r hr
    cases hr
    decide
  have h2 : ∀ r, some vga_vga_hdmi = some r → ∀ i c s, r.connectors[i]? = some c →
      vga_vga_hdmi_create i c = some s → s.type < connector_names.length := by
    intro r _ i c s _ hs
    simp only [vga_vga_hdmi_create, Option.some.injEq] at hs
    subst hs
    show (if i < 2 then 1 else 11) < 17
    split <;> decide
  exact ⟨h1, h2, by decide,
    probe_screens_names (some vga_vga_hdmi) true vga_vga_hdmi_create (fun _ => true) 3 h1 h2⟩

/-- Lookup by id on `vga_vga_hdmi_device`, from the general statement: id 32
gives the screen `VGA-1`, id 99 gives `NULL`. -/
theorem get_connector_by_id_spec_witness :
    (∀ k, k < vga_vga_hdmi_device.num_screens →
      ∃ o, vga_vga_hdmi_device.screens[k]? = some o ∧ (true = true → o ≠ none)) ∧
    (∀ i j s t, i < vga_vga_hdmi_device.num_screens → j < vga_vga_hdmi_device.num_screens →
      vga_vga_hdmi_device.screens[i]? = some (some s) →
      vga_vga_hdmi_device.screens[j]? = some (some t) → s.id = t.id → i = j) ∧
    (get_connector_by_id true vga_vga_hdmi_device 32).out =
      some (some ⟨32, 1, some "VGA-1"⟩) ∧
    (get_connector_by_id true vga_vga_hdmi_device 99).out = some none := by
  have h1 : ∀ k, k < vga_vga_hdmi_device.num_screens →
      ∃ o, vga_vga_hdmi_device.screens[k]? = some o ∧ (true = true → o ≠ none) := by
    intro k hk
    have hk3 : k < 3 := hk
    interval_cases k <;> exact ⟨_, rfl, fun _ => by decide⟩
  have h2 : ∀ i j s t, i < vga_vga_hdmi_device.num_screens →
      j < vga_vga_hdmi_device.num_screens →
      vga_vga_hdmi_device.screens[i]? = some (some s) →
      vga_vga_hdmi_device.screens[j]? = some (some t) → s.id = t.id → i = j := by
    intro i j s t hi hj hs ht e
    have hi3 : i < 3 := hi
    have hj3 : j < 3 := hj
    interval_cases i <;> interval_cases j <;>
      first
        | rfl
        | (simp [vga_vga_hdmi_device, calloc_device] at hs ht
           subst hs
           subst ht
           simp at e)
  have h := get_connector_by_id_spec true vga_vga_hdmi_device h1 h2
  refine ⟨h1, h2, h.1 1 ⟨32, 1, some "VGA-1"⟩ (by decide) (by decide), h.2 99 ?_⟩
  intro i s hi hs
  have hi3 : i < 3 := hi
  interval_cases i <;> simp [vga_vga_hdmi_device, calloc_device] at hs <;>
    (subst hs; decide)

/-- Claim C3. A CRTC that probing materialised and stored is not found by its
id: on the list of CRTCs 10 and 11 where the first materialisation fails,
`dp_device_probe_crtcs` stores CRTC 11 in slot 1 with `num_crtcs = 1`, and
`get_crtc_index(dev, 11)` scans slot 0 only and returns -1. -/
theorem get_crtc_index_misses_stored_crtc :
    dp_device_probe_crtcs (some two_crtcs) true first_crtc_fails (calloc_device 3) =
      some gap_device ∧
    gap_device.crtcs[1]? = some (some ⟨11⟩) ∧
    get_crtc_index gap_device 11 = ⟨[Access.crtcs 0], some (-1)⟩ := by
  decide

/-- Lookup by type on the scenario, from the general statement: the second
primary plane is plane 7, and there is no third one. -/
theorem find_plane_by_type_spec_witness :
    (∀ i, i < scenario.num_planes → ∃ p, scenario.planes[i]? = some (some p)) ∧
    (dp_device_find_plane_by_type true scenario 1 1).out =
      some (some ⟨7, 1, some ⟨10⟩⟩) ∧
    (dp_device_find_plane_by_type true scenario 1 2).out = some none := by
  have h1 : ∀ i, i < scenario.num_planes → ∃ p, scenario.planes[i]? = some (some p) := by
    intro i hi
    have hi3 : i < 3 := hi
    interval_cases i <;> exact ⟨_, rfl⟩
  exact ⟨h1, (find_plane_by_type_spec true scenario 1 1 h1).1 _ (by decide),
    (find_plane_by_type_spec true scenario 1 2 h1).2 (by decide)⟩

/-- The first plane of CRTC 11 in the scenario, from the general statement. -/
theorem find_plane_by_index_first_witness :
    scenario.num_crtcs < 2 ^ 32 ∧ scenario.num_planes < 2 ^ 32 ∧ 1 < scenario.num_crtcs ∧
    scenario.crtcs[1]? = some (some ⟨11⟩) ∧
    (∀ k, k < scenario.num_planes → ∃ x, owner_id scenario k = some x) ∧
    (∃ k, k < scenario.num_planes ∧ owner_id scenario k = some (dp_crtc.mk 11).id) ∧
    ∃ j p, j < scenario.num_planes ∧ scenario.planes[j]? = some (some p) ∧
      owner_id scenario j = some (dp_crtc.mk 11).id ∧
      (∀ k, k < j → owner_id scenario k ≠ some (dp_crtc.mk 11).id) ∧
      (dp_device_find_plane_by_index true scenario 1 0).out = some (some p) := by
  have h1 : ∀ k, k < scenario.num_planes → ∃ x, owner_id scenario k = some x := by
    intro k hk
    have hk3 : k < 3 := hk
    interval_cases k <;> exact ⟨_, rfl⟩
  have h2 : ∃ k, k < scenario.num_planes ∧ owner_id scenario k = some (dp_crtc.mk 11).id :=
    ⟨0, by decide, by decide⟩
  exact ⟨by decide, by decide, by decide, by decide, h1, h2,
    find_plane_by_index_first true scenario 1 ⟨11⟩ (by decide) (by decide) (by decide)
      (by decide) h1 h2⟩

/-- An out-of-range `crtc_index` on a device with at least one CRTC: both
lookups return `NULL` and evaluate no array slot. -/
theorem find_plane_out_of_range (dbg : Bool) (dev : dp_device)
    (connector_index crtc_index plane_index : Nat)
    (h0 : 0 < dev.num_crtcs) (hn : dev.num_crtcs < 2 ^ 32)
    (h : dev.num_crtcs ≤ crtc_index) :
    dp_device_find_plane_by_index dbg dev crtc_index plane_index = ⟨[], some none⟩ ∧
    dp_device_find_plane_by_index_for_screen dbg dev connector_index crtc_index
      plane_index = ⟨[], some none⟩ := by
  have hg : crtc_index > (dev.num_crtcs + 2 ^ 32 - 1) % 2 ^ 32 := by omega
  unfold dp_device_find_plane_by_index dp_device_find_plane_by_index_for_screen
  rw [if_pos hg, if_pos hg]
  exact ⟨rfl, rfl⟩

/-- Claim C6. With `num_crtcs = 0` the range test `crtc_index > num_crtcs - 1`
compares with `2 ^ 32 - 1` and lets every index through: on `no_crtc_device`
(no CRTC array) the index 0 is out of range, yet both lookups evaluate
`crtcs[0]`, outside the array, instead of returning `NULL` untouched. -/
theorem find_plane_without_crtcs_reads_slot :
    no_crtc_device.num_crtcs = 0 ∧
    (∀ dbg, dp_device_find_plane_by_index dbg no_crtc_device 0 0 =
      ⟨[Access.crtcs 0], none⟩) ∧
    (∀ dbg, dp_device_find_plane_by_index_for_screen dbg no_crtc_device 0 0 0 =
      ⟨[Access.screens 0, Access.screens 0, Access.crtcs 0], none⟩) := by
  decide

/-- Claim C7. The returned plane is not checked against the CRTC: in the
scenario, `dp_device_find_plane_by_index(dev, 1, 2)` for CRTC 11 finds its
first plane in slot 0 and returns the plane of slot 2, plane 7, whose owning
CRTC is 10. -/
theorem find_plane_by_index_returns_foreign_plane :
    scenario.crtcs[1]? = some (some ⟨11⟩) ∧
    ∀ dbg, (dp_device_find_plane_by_index dbg scenario 1 2).out =
      some (some ⟨7, 1, some ⟨10⟩⟩) := by
  decide

/-- Claim C8. The sum `i + plane_index` wraps: in the scenario the first plane
of CRTC 10 is in slot 2, and with `plane_index = 2 ^ 32 - 2` the position
`2 + plane_index` is `2 ^ 32`, not below `num_planes = 3`; the code computes
position 0 and returns plane 5 instead of `NULL`. -/
theorem find_plane_by_index_offset_wraps :
    scenario.crtcs[0]? = some (some ⟨10⟩) ∧
    owner_id scenario 0 = some 11 ∧ owner_id scenario 1 = some 11 ∧
    owner_id scenario 2 = some 10 ∧
    scenario.num_planes ≤ 2 + 4294967294 ∧
    ∀ dbg, (dp_device_find_plane_by_index dbg scenario 0 4294967294).out =
      some (some ⟨5, 1, some ⟨11⟩⟩) := by
  decide

/-- Claim C9. A plane without owning CRTC ahead of the planes of the CRTC stops
the lookup: on `unbound_plane_device` every slot is filled and CRTC 11 owns
exactly the planes of the contiguous slots 1 and 2, so its plane number 1 is
plane 6; `dp_device_find_plane_by_index(dev, 1, 1)` dereferences the absent
owning CRTC of the plane in slot 0 (undefined behaviour) and returns no
plane. -/
theorem find_plane_by_index_nth_unbound_plane :
    unbound_plane_device.crtcs[1]? = some (some ⟨11⟩) ∧
    (∀ k, k < unbound_plane_device.num_planes →
      (unbound_plane_device.planes[k]?.bind fun o => o).isSome = true) ∧
    (∀ k, k < unbound_plane_device.num_planes →
      (owner_id unbound_plane_device k = some 11 ↔ 1 ≤ k ∧ k < 1 + 2)) ∧
    (owned_planes unbound_plane_device 11)[1]? = some ⟨6, 0, some ⟨11⟩⟩ ∧
    (dp_device_find_plane_by_index false unbound_plane_device 1 1).out = none ∧
    (dp_device_find_plane_by_index true unbound_plane_device 1 1).out = none := by
  decide

/-- The plane number 1 of CRTC 11 in the scenario, from the general
statement: plane 6. -/
theorem find_plane_by_index_nth_witness :
    scenario.num_crtcs < 2 ^ 32 ∧ scenario.num_planes < 2 ^ 32 ∧ 1 < scenario.num_crtcs ∧
    scenario.crtcs[1]? = some (some ⟨11⟩) ∧
    (∀ k, k < scenario.num_planes → ∃ p, scenario.planes[k]? = some (some p)) ∧
    (∀ k, k < scenario.num_planes →
      (owner_id scenario k = some (dp_crtc.mk 11).id ↔ 0 ≤ k ∧ k < 0 + 2)) ∧
    0 + 2 ≤ scenario.num_planes ∧
    (∀ k, k < 0 → ∃ x, owner_id scenario k = some x) ∧
    1 < (owned_planes scenario (dp_crtc.mk 11).id).length ∧
    (owned_planes scenario 11)[1]? = some ⟨6, 0, some ⟨11⟩⟩ ∧
    ∃ p, (owned_planes scenario (dp_crtc.mk 11).id)[1]? = some p ∧
      (dp_device_find_plane_by_index true scenario 1 1).out = some (some p) := by
  have h1 : ∀ k, k < scenario.num_planes → ∃ p, scenario.planes[k]? = some (some p) := by
    intro k hk
    have hk3 : k < 3 := hk
    interval_cases k <;> exact ⟨_, rfl⟩
  have h2 : ∀ k, k < scenario.num_planes →
      (owner_id scenario k = some (dp_crtc.mk 11).id ↔ 0 ≤ k ∧ k < 0 + 2) := by
    decide
  have h3 : ∀ k, k < 0 → ∃ x, owner_id scenario k = some x := by
    intro k hk
    omega
  exact ⟨by decide, by decide, by decide, by decide, h1, h2, by decide, h3, by decide,
    by decide,
    find_plane_by_index_nth true scenario 1 ⟨11⟩ 0 2 1 (by decide) (by decide) (by decide)
      (by decide) h1 h2 (by decide) h3 (by decide)⟩

/-- The variant with a screen on the scenario, from the general statement. -/
theorem find_plane_for_screen_same_witness :
    (∀ k, k < scenario_with_screens.num_screens →
      ∃ s, scenario_with_screens.screens[k]? = some (some s)) ∧
    1 < scenario_with_screens.num_screens ∧
    (dp_device_find_plane_by_index_for_screen true scenario_with_screens 1 1 1).out =
      (dp_device_find_plane_by_index true scenario_with_screens 1 1).out := by
  have h1 : ∀ k, k < scenario_with_screens.num_screens →
      ∃ s, scenario_with_screens.screens[k]? = some (some s) := by
    intro k hk
    have hk3 : k < 3 := hk
    interval_cases k <;> exact ⟨_, rfl⟩
  exact ⟨h1, by decide, find_plane_for_screen_same true scenario_with_screens 1 1 1 h1
    (by decide)⟩

/-- Claim C11. The test on `connector_index` only logs: on the scenario with
three screens and two CRTCs, with `connector_index = 3 = num_screens` and the
in-range `crtc_index = 1`, `dp_device_find_plane_by_index_for_screen`
evaluates `screens[3]`, outside the array, instead of returning `NULL`. -/
theorem find_plane_for_screen_reads_past_screens :
    scenario_with_screens.num_screens = 3 ∧ 1 < scenario_with_screens.num_crtcs ∧
    ∀ dbg, dp_device_find_plane_by_index_for_screen dbg scenario_with_screens 3 1 0 =
      ⟨[Access.screens 3], none⟩ := by
  decide

/-- Claim C15. No plane of `unbound_plane_device` is owned by CRTC 10, the
CRTC of the in-range index 0, and the plane in slot 0 has no owning CRTC:
`dp_device_find_plane_by_index(dev, 0, 0)` dereferences that absent owner
(undefined behaviour) instead of returning `NULL`. -/
theorem find_plane_by_index_unbound_plane_faults :
    unbound_plane_device.crtcs[0]? = some (some ⟨10⟩) ∧
    (∀ k, k < unbound_plane_device.num_planes →
      owner_id unbound_plane_device k ≠ some 10) ∧
    owner_id unbound_plane_device 0 = none ∧
    ∀ dbg, dp_device_find_plane_by_index dbg unbound_plane_device 0 0 =
      ⟨[Access.crtcs 0, Access.planes 0], none⟩ := by
  decide

/-- Claim C17. A CRTC stored past the count is never destroyed: on
`gap_platform` the device holds CRTC 11 in slot 1 with `num_crtcs = 1`, and
`dp_device_close` calls `dp_crtc_free` once, on the `NULL` of slot 0, and
never on CRTC 11. -/
theorem dp_device_close_misses_stored_crtc :
    dp_device_open true 3 gap_platform = some (some gap_platform_device) ∧
    gap_platform_device.crtcs[1]? = some (some ⟨11⟩) ∧
    dp_device_close gap_platform_device = some
      [Release.dp_plane_free (some ⟨5, 1, some ⟨11⟩⟩),
       Release.dp_plane_free (some ⟨6, 1, some ⟨11⟩⟩), Release.free_planes,
       Release.dp_crtc_free none, Release.free_crtcs, Release.free_screens,
       Release.close 3, Release.free_device] := by
  decide

/-- Claim C19 (counterexample). The counters are not 16: there are 17, and a
DSI screen (type 16) is named from the counter of index 16. -/
theorem probe_screens_counters_not_sixteen :
    initial_counts.length ≠ 16 ∧ initial_counts[16]? = some 0 ∧
    dp_device_probe_screens (some one_dsi) true (fun _ c => some ⟨c, 16, none⟩)
        (fun _ => true) (calloc_device 3) =
      some { calloc_device 3 with
        screens := [some ⟨70, 16, some "DSI-0"⟩], num_screens := 1 } := by
  decide

/-- Lookup of a CRTC index on `sparse_crtcs_device`, from the general
statement: the empty slot 0 is stepped over, id 11 is found at index 1, and
id 10 gives -1. -/
theorem get_crtc_index_spec_witness :
    sparse_crtcs_device.num_crtcs ≤ sparse_crtcs_device.crtcs.length ∧
    (get_crtc_index sparse_crtcs_device 11).out = some 1 ∧
    (get_crtc_index sparse_crtcs_device 10).out = some (-1) := by
  have h : sparse_crtcs_device.num_crtcs ≤ sparse_crtcs_device.crtcs.length := by decide
  refine ⟨h, (get_crtc_index_spec sparse_crtcs_device 11 h).1 1 ⟨11⟩ (by decide) (by decide)
    rfl ?_, (get_crtc_index_spec sparse_crtcs_device 10 h).2.1.mpr ?_⟩
  · intro k c' hk hc
    interval_cases k
    simp [sparse_crtcs_device, calloc_device] at hc
  · intro k c hk hc
    have hk2 : k < 2 := hk
    interval_cases k
    · simp [sparse_crtcs_device, calloc_device] at hc
    · simp [sparse_crtcs_device, calloc_device] at hc
      subst hc
      decide

/-- Lookup by name on the device built from `vga_vga_hdmi`, from the general
statement: `VGA-1` gives the second screen, `DVI-I-0` gives `NULL`. -/
theorem get_connector_by_name_spec_witness :
    (∀ r, some vga_vga_hdmi = some r → r.connectors.length < 2 ^ 32) ∧
    (∀ r, some vga_vga_hdmi = some r → ∀ i c s, r.connectors[i]? = some c →
      vga_vga_hdmi_create i c = some s → s.type < connector_names.length) ∧
    (get_connector_by_name vga_vga_hdmi_device "VGA-1").out =
      some (some ⟨32, 1, some "VGA-1"⟩) ∧
    (get_connector_by_name vga_vga_hdmi_device "DVI-I-0").out = some none := by
  have h1 : ∀ r, some vga_vga_hdmi = some r → r.connectors.length < 2 ^ 32 := by
    intro r hr
    cases hr
    decide
  have h2 : ∀ r, some vga_vga_hdmi = some r → ∀ i c s, r.connectors[i]? = some c →
      vga_vga_hdmi_create i c = some s → s.type < connector_names.length := by
    intro r _ i c s _ hs
    simp only [vga_vga_hdmi_create, Option.some.injEq] at hs
    subst hs
    show (if i < 2 then 1 else 11) < 17
    split <;> decide
  obtain ⟨dev, hdev, hhit, hmiss⟩ := get_connector_by_name_spec (some vga_vga_hdmi) true
    vga_vga_hdmi_create (fun _ => true) 3 h1 h2
  have hd : dp_device_probe_screens (some vga_vga_hdmi) true vga_vga_hdmi_create
      (fun _ => true) (calloc_device 3) = some vga_vga_hdmi_device := by decide
  rw [hd] at hdev
  cases hdev
  refine ⟨h1, h2, hhit 1 _ "VGA-1" (by decide) (by decide) rfl, hmiss "DVI-I-0" ?_⟩
  intro i s hi hs
  have hi3 : i < 3 := hi
  interval_cases i <;> simp [vga_vga_hdmi_device, calloc_device] at hs <;>
    (subst hs; decide)

/-- The screens stored from `vga_vga_hdmi` when the second name allocation
fails, from the general statement. -/
theorem probe_screens_stored_witness :
    (∀ r, some vga_vga_hdmi = some r → r.connectors.length < 2 ^ 32) ∧
    (∀ r, some vga_vga_hdmi = some r → ∀ i c s, r.connectors[i]? = some c →
      vga_vga_hdmi_create i c = some s → s.type < connector_names.length) ∧
    dp_device_probe_screens (some vga_vga_hdmi) true vga_vga_hdmi_create malloc_second_fails
      (calloc_device 3) = some { calloc_device 3 with
        screens := [some ⟨31, 1, some "VGA-0"⟩, some ⟨33, 11, some "HDMI-A-0"⟩, none]
        num_screens := 2 } ∧
    ∃ (dev : dp_device) (L : List dp_screen),
      dp_device_probe_screens (some vga_vga_hdmi) true vga_vga_hdmi_create
        malloc_second_fails (calloc_device 3) = some dev ∧
      dev.screens.take dev.num_screens = L.map some ∧ dev.num_screens = L.length ∧
      (∀ r, some vga_vga_hdmi = some r → dev.num_screens ≤ r.connectors.length ∧
        (true = true →
          L.map (fun s => (s.id, s.type)) =
            (kept_screens vga_vga_hdmi_create malloc_second_fails r.connectors 0).map
              (fun s => (s.id, s.type)) ∧
          dev.num_screens =
            (kept_screens vga_vga_hdmi_create malloc_second_fails r.connectors 0).length)) ∧
      ((some vga_vga_hdmi = none ∨ true = false) → dev.num_screens = 0) := by
  have h1 : ∀ r, some vga_vga_hdmi = some r → r.connectors.length < 2 ^ 32 := by
    intro r hr
    cases hr
    decide
  have h2 : ∀ r, some vga_vga_hdmi = some r → ∀ i c s, r.connectors[i]? = some c →
      vga_vga_hdmi_create i c = some s → s.type < connector_names.length := by
    intro r _ i c s _ hs
    simp only [vga_vga_hdmi_create, Option.some.injEq] at hs
    subst hs
    show (if i < 2 then 1 else 11) < 17
    split <;> decide
  exact ⟨h1, h2, by decide,
    probe_screens_stored (some vga_vga_hdmi) true vga_vga_hdmi_create malloc_second_fails 3
      h1 h2⟩

/-- Opening on `gap_platform`, from the general statement: the connector
query fails, the screens are empty with count 0, and the CRTC and plane
probes still fill their arrays. -/
theorem dp_device_open_spec_witness :
    (∀ r, gap_platform.connector_res = some r → r.connectors.length < 2 ^ 32) ∧
    (∀ r, gap_platform.connector_res = some r → ∀ i c s, r.connectors[i]? = some c →
      gap_platform.dp_screen_create i c = some s → s.type < connector_names.length) ∧
    dp_device_open false 3 gap_platform = some none ∧
    dp_device_open true 3 gap_platform = some (some gap_platform_device) ∧
    gap_platform_device.fd = 3 ∧
    gap_platform_device.screens = [] ∧ gap_platform_device.num_screens = 0 := by
  have h1 : ∀ r, gap_platform.connector_res = some r → r.connectors.length < 2 ^ 32 := by
    intro r hr
    cases hr
  have h2 : ∀ r, gap_platform.connector_res = some r → ∀ i c s, r.connectors[i]? = some c →
      gap_platform.dp_screen_create i c = some s → s.type < connector_names.length := by
    intro r hr
    cases hr
  obtain ⟨hnull, dev, hdev, hfd, hscreens, -⟩ := dp_device_open_spec 3 gap_platform h1 h2
  have hd : dp_device_open true 3 gap_platform = some (some gap_platform_device) := by decide
  rw [hd] at hdev
  cases hdev
  exact ⟨h1, h2, hnull, hd, hfd, (hscreens rfl).1, (hscreens rfl).2⟩

/-- The counters on `one_dsi`, from the general statement: the DSI screen is
named from counter 16, which alone becomes 1. -/
theorem probe_screens_counters_witness :
    dp_device_probe_screens_loop (fun _ c => some ⟨c, 16, none⟩) (fun _ => true) [70] 0
        initial_counts { calloc_device 3 with screens := [none] } =
      dp_device_probe_screens_loop (fun _ c => some ⟨c, 16, none⟩) (fun _ => true) [] 1
        (initial_counts.set 16 ((0 + 1) % 2 ^ 32))
        { calloc_device 3 with
          screens := [some ⟨70, 16, some (format_name "DSI" 0)⟩], num_screens := 1 } :=
  probe_screens_counters.2.2.2.2 (fun _ c => some ⟨c, 16, none⟩) (fun _ => true) 70 [] 0
    initial_counts { calloc_device 3 with screens := [none] } ⟨70, 16, none⟩ "DSI" 0
    rfl (by decide) (by decide) rfl (by decide)

end DpDevice
